import Mathlib

set_option maxRecDepth 40000
set_option allowUnsafeReducibility true
attribute [semireducible] Rat.add Rat.sub Rat.mul Rat.div Rat.inv

/-!
# Verification of the Size-Confirmation Workflow Engine

Shallow embedding of the core subsystem of the `kaspi_etl` repository:

* `services/wa_webhook.py`  — inbound text parser (`HEIGHT_RE`, `WEIGHT_RE`,
  `parse_confirmation`, `enrich_parsed`);
* `scripts/size_recommendation_engine.py` — the pure size recommendation
  engine (`SIZE_CHARTS`, `_recommend_adult_size`, `_recommend_kids_size`,
  `recommend_size`);
* `integrations/whatsapp_api.py` — `send_message` / `_insert_wa_outbox`;
* `scripts/size_workflow.py` — the batch tick `process_once` and its helper
  queries;
* `scripts/crm_db_migrations_phase2.py` — the persisted schema.

Modelling conventions:

* SQLite tables are Lean lists of rows in insertion order; `INSERT` appends.
  `created_at` timestamps are modelled by a store-wide counter `clock` that
  strictly increases at each `size_recommendations` insert, so `ORDER BY
  created_at DESC` picks the most recently inserted row (the Python code
  uses second-resolution wall-clock strings, for which SQLite leaves ties
  unordered; the model refines that by making later inserts strictly later).
* Python floats are modelled as exact rationals (`ℚ`).  Every comparison the
  engine performs is between sums of halves and of `d/20`, `d/10` with `d`
  a small integer; at the concrete inputs used below the float and rational
  comparisons agree.
* Free text is a `List Char`.  The Python regex character class `\w` (plus
  the extra letters `ёғқңөұүһ`) is modelled over the alphabets the service
  receives: ASCII alphanumerics, `_`, and the Cyrillic block U+0400–U+04FF
  (which contains every Russian and Kazakh letter, including the extras).
* Filesystem and network effects of `send_message` are modelled by counters
  (`artifacts`, `netCalls`) on a `World` wrapping the database `Store`; the
  outcome of a live vendor call is an oracle `Nat → Bool` indexed by the
  number of network calls made so far.
-/

namespace KaspiEtl

/-! ## Generic helpers: a stable insertion sort in descending key order.

Python's `list.sort(key=…, reverse=True)` is a stable sort; both adult
alternatives (sorted by score) and the SQL `ORDER BY … DESC` queries are
modelled with this stable descending insertion sort. -/

def insDesc {α : Type} {β : Type} [LinearOrder β] (key : α → β) (x : α) :
    List α → List α
  | [] => [x]
  | y :: ys => if key y < key x then x :: y :: ys else y :: insDesc key x ys

def sortByDesc {α : Type} {β : Type} [LinearOrder β] (key : α → β)
    (l : List α) : List α :=
  l.foldl (fun acc x => insDesc key x acc) []

/-! ## Inbound parser (`services/wa_webhook.py`) -/

namespace WaWebhook

/-- Characters matched by the token pattern `[\wёғқңөұүһ]+` of
`parse_confirmation`, restricted to the alphabets the webhook receives:
ASCII alphanumerics, underscore, and the Cyrillic block U+0400–U+04FF. -/
def isWordChar (c : Char) : Bool :=
  c.isAlphanum || c = '_' || (0x400 ≤ c.toNat && c.toNat ≤ 0x4FF)

/-- Python whitespace characters (the `\s` class and `str.strip`),
restricted to ASCII whitespace. -/
def isPySpace (c : Char) : Bool :=
  c = ' ' || c = '\t' || c = '\n' || c = '\r' || c = '\x0b' || c = '\x0c'

/-- `str.lower` restricted to the alphabets handled here: ASCII letters,
the basic Cyrillic range, and the extended Cyrillic letters used by Kazakh
(even code points U+0460–U+052F map to the following odd code point). -/
def lowerChar (c : Char) : Char :=
  let n := c.toNat
  if 0x41 ≤ n && n ≤ 0x5A then Char.ofNat (n + 0x20)
  else if 0x410 ≤ n && n ≤ 0x42F then Char.ofNat (n + 0x20)
  else if 0x400 ≤ n && n ≤ 0x40F then Char.ofNat (n + 0x50)
  else if 0x460 ≤ n && n ≤ 0x52F && n % 2 = 0 then Char.ofNat (n + 1)
  else c

/-- `str.strip()`. -/
def pyStrip (s : List Char) : List Char :=
  ((s.dropWhile isPySpace).reverse.dropWhile isPySpace).reverse

/-- Accumulator pass splitting a text into maximal runs of word characters,
i.e. `re.findall(r"[\wёғқңөұүһ]+", t)`. -/
def tokensAux : List Char → List Char → List (List Char)
  | [], cur => if cur.isEmpty then [] else [cur.reverse]
  | c :: cs, cur =>
    if isWordChar c then tokensAux cs (c :: cur)
    else if cur.isEmpty then tokensAux cs cur
    else cur.reverse :: tokensAux cs []

def findTokens (s : List Char) : List (List Char) := tokensAux s []

/-- The affirmative token set of `parse_confirmation`. -/
def yesWords : List (List Char) :=
  ["да".data, "иә".data, "иа".data, "yes".data, "y".data]

/-- The negative token set of `parse_confirmation`. -/
def noWords : List (List Char) :=
  ["нет".data, "жоқ".data, "joq".data, "no".data, "n".data]

/-- The scan over the token list: per token first the affirmative set is
tested, then the negative set; the first token in either set decides. -/
def confirmScan : List (List Char) → Option String
  | [] => none
  | tok :: rest =>
    if yesWords.contains tok then some "yes"
    else if noWords.contains tok then some "no"
    else confirmScan rest

/-- `parse_confirmation(text)` from `services/wa_webhook.py`. -/
def parse_confirmation (text : List Char) : Option String :=
  confirmScan (findTokens ((pyStrip text).map lowerChar))

/-- Numeric value of a digit run (`int` of the matched group). -/
def digitsVal (ds : List Char) : Nat :=
  ds.foldl (fun a c => 10 * a + (c.toNat - 48)) 0

/-- Does one of the two unit spellings (both given lowercase) occur right
after optional whitespace at the head of `s`?  Models `\s*(u1|u2)` with
`re.IGNORECASE`. -/
def unitAt (u1 u2 : List Char) (s : List Char) : Bool :=
  let r := s.dropWhile isPySpace
  ((r.take u1.length).map lowerChar == u1) ||
    ((r.take u2.length).map lowerChar == u2)

/-- Backtracking match of `(\d{2,3})\s*(u1|u2)` at the head of `s`:
the greedy quantifier first tries three digits, then two.  Returns the
value of the digit group.  Mirrors CPython semantics for this pattern. -/
def matchDigitsUnit (u1 u2 : List Char) (s : List Char) : Option Nat :=
  match s with
  | a :: b :: c :: rest =>
    if a.isDigit && b.isDigit && c.isDigit then
      if unitAt u1 u2 rest then some (digitsVal [a, b, c])
      else if unitAt u1 u2 (c :: rest) then some (digitsVal [a, b])
      else none
    else if a.isDigit && b.isDigit then
      if unitAt u1 u2 (c :: rest) then some (digitsVal [a, b]) else none
    else none
  | [a, b] =>
    if a.isDigit && b.isDigit then
      if unitAt u1 u2 [] then some (digitsVal [a, b]) else none
    else none
  | _ => none

/-- `re.search` for the pattern above: leftmost position whose match
attempt succeeds. -/
def searchNumUnit (u1 u2 : List Char) : List Char → Option Nat
  | [] => none
  | c :: rest =>
    match matchDigitsUnit u1 u2 (c :: rest) with
    | some v => some v
    | none => searchNumUnit u1 u2 rest

/-- `HEIGHT_RE.search`: `(\d{2,3})\s*(см|cm)`, case-insensitive. -/
def heightSearch (s : List Char) : Option Nat :=
  searchNumUnit "см".data "cm".data s

/-- `WEIGHT_RE.search`: `(\d{2,3})\s*(кг|kg)`, case-insensitive. -/
def weightSearch (s : List Char) : Option Nat :=
  searchNumUnit "кг".data "kg".data s

/-- The `parsed` dictionary attached to an inbound message. -/
structure Parsed where
  height_cm : Option Int
  weight_kg : Option Int
  confirmation : Option String
  deriving DecidableEq, Repr

/-- `enrich_parsed(text)` from `services/wa_webhook.py`. -/
def enrich_parsed (text : List Char) : Parsed :=
  { height_cm := (heightSearch text).map Int.ofNat
    weight_kg := (weightSearch text).map Int.ofNat
    confirmation := parse_confirmation text }

end WaWebhook

/-! ## Size recommendation engine (`scripts/size_recommendation_engine.py`) -/

namespace SizeEngine

/-- The result dataclass `SizeRecommendation`. -/
structure SizeRecommendation where
  recommended_size : String
  confidence_score : ℚ
  reasoning : String
  alternative_sizes : List String
  deriving DecidableEq, Repr

/-- One entry of a `height_weight_matrix`:
`(height_min, height_max, weight_min, weight_max)`. -/
structure HWRange where
  hmin : Int
  hmax : Int
  wmin : Int
  wmax : Int
  deriving DecidableEq, Repr

/-- `SIZE_CHARTS['CL']['Men']['height_weight_matrix']`, in source order
(Python dicts iterate in insertion order). -/
def menMatrix : List (HWRange × String) :=
  [ (⟨165, 170, 60, 70⟩, "S"),
    (⟨165, 170, 70, 80⟩, "M"),
    (⟨165, 170, 80, 90⟩, "L"),
    (⟨170, 175, 60, 70⟩, "S"),
    (⟨170, 175, 70, 80⟩, "M"),
    (⟨170, 175, 80, 90⟩, "L"),
    (⟨170, 175, 90, 100⟩, "XL"),
    (⟨175, 180, 65, 75⟩, "M"),
    (⟨175, 180, 75, 85⟩, "L"),
    (⟨175, 180, 85, 95⟩, "XL"),
    (⟨175, 180, 95, 105⟩, "2XL"),
    (⟨180, 185, 70, 80⟩, "L"),
    (⟨180, 185, 80, 90⟩, "XL"),
    (⟨180, 185, 90, 100⟩, "2XL"),
    (⟨180, 185, 100, 110⟩, "3XL"),
    (⟨185, 195, 75, 85⟩, "XL"),
    (⟨185, 195, 85, 95⟩, "2XL"),
    (⟨185, 195, 95, 110⟩, "3XL"),
    (⟨185, 195, 110, 125⟩, "4XL") ]

/-- `SIZE_CHARTS['CL']['Women']['height_weight_matrix']`, in source order. -/
def womenMatrix : List (HWRange × String) :=
  [ (⟨155, 165, 45, 55⟩, "S"),
    (⟨155, 165, 55, 65⟩, "M"),
    (⟨155, 165, 65, 75⟩, "L"),
    (⟨165, 170, 50, 60⟩, "S"),
    (⟨165, 170, 60, 70⟩, "M"),
    (⟨165, 170, 70, 80⟩, "L"),
    (⟨165, 170, 80, 90⟩, "XL"),
    (⟨170, 175, 55, 65⟩, "M"),
    (⟨170, 175, 65, 75⟩, "L"),
    (⟨170, 175, 75, 85⟩, "XL"),
    (⟨170, 175, 85, 95⟩, "2XL"),
    (⟨175, 180, 60, 70⟩, "L"),
    (⟨175, 180, 70, 80⟩, "XL"),
    (⟨175, 180, 80, 90⟩, "2XL") ]

/-- `SIZE_CHARTS['CL']['Kids']['age_height_matrix']`:
`(age_min, age_max, height_min, height_max) : size`. -/
def kidsAgeMatrix : List ((Int × Int × Int × Int) × String) :=
  [ ((2, 3, 85, 95), "22"),
    ((3, 4, 95, 105), "24"),
    ((4, 5, 105, 115), "26"),
    ((5, 6, 115, 125), "28"),
    ((6, 7, 125, 135), "30"),
    ((7, 8, 135, 145), "32"),
    ((8, 9, 145, 155), "34") ]

/-- `SIZE_CHARTS['CL']['Kids']['height_sizes']`, in source order. -/
def kidsHeightSizes : List (String × Int × Int) :=
  [ ("22", 85, 95),
    ("24", 95, 105),
    ("26", 105, 115),
    ("28", 115, 125),
    ("30", 125, 135),
    ("32", 135, 145),
    ("34", 145, 155) ]

/-- The per-candidate score of `_recommend_adult_size`: 0.5 per dimension
inside the range, otherwise `max(0, 0.5 - distance/divisor)` with divisor 20
for height and 10 for weight, the distance being the minimum absolute
distance to either end of the range. -/
def candScore (height weight : Int) (e : HWRange) : ℚ :=
  let heightScore : ℚ :=
    if e.hmin ≤ height ∧ height ≤ e.hmax then 1 / 2
    else max 0 (1 / 2 -
      ((min (height - e.hmin).natAbs (height - e.hmax).natAbs : ℕ) : ℚ) / 20)
  let weightScore : ℚ :=
    if e.wmin ≤ weight ∧ weight ≤ e.wmax then 1 / 2
    else max 0 (1 / 2 -
      ((min (weight - e.wmin).natAbs (weight - e.wmax).natAbs : ℕ) : ℚ) / 10)
  heightScore + weightScore

/-- Loop state of `_recommend_adult_size`: current best match (if any),
current best score (initially 0), and the accumulated alternatives list. -/
structure AdultAcc where
  best : Option (String × ℚ)
  best_score : ℚ
  alternatives : List (String × ℚ)
  deriving DecidableEq, Repr

/-- One iteration of the `_recommend_adult_size` loop: a strictly better
score displaces the current best (appending the displaced best to the
alternatives); otherwise a score above 0.3 is recorded as an alternative. -/
def adultStep (height weight : Int) (acc : AdultAcc) (e : HWRange × String) :
    AdultAcc :=
  let score := candScore height weight e.1
  if acc.best_score < score then
    { best := some (e.2, score)
      best_score := score
      alternatives :=
        acc.alternatives ++ (match acc.best with
          | some b => [b]
          | none => []) }
  else if (3 : ℚ) / 10 < score then
    { acc with alternatives := acc.alternatives ++ [(e.2, score)] }
  else acc

/-- The full candidate loop of `_recommend_adult_size`. -/
def adultFold (height weight : Int) (matrix : List (HWRange × String)) :
    AdultAcc :=
  matrix.foldl (adultStep height weight) ⟨none, 0, []⟩

/-- `_recommend_adult_size(height_cm, weight_kg, size_chart)`. -/
def recommendAdultSize (height weight : Int)
    (matrix : List (HWRange × String)) : SizeRecommendation :=
  let acc := adultFold height weight matrix
  match acc.best with
  | some (sz, conf) =>
    let reasoning :=
      "Based on height " ++ toString height ++ "cm and weight " ++
        toString weight ++ "kg" ++
        (if (4 : ℚ) / 5 < conf then " - excellent fit"
         else if (3 : ℚ) / 5 < conf then " - good fit"
         else " - approximate fit")
    { recommended_size := sz
      confidence_score := conf
      reasoning := reasoning
      alternative_sizes := ((sortByDesc Prod.snd acc.alternatives).take 3).map Prod.fst }
  | none =>
    { recommended_size := "M"
      confidence_score := 1 / 5
      reasoning := "No exact match for height " ++ toString height ++
        "cm, weight " ++ toString weight ++ "kg - using default"
      alternative_sizes := ["S", "L", "XL"] }

/-- Distance between a height and a closed range, as in the kids fallback. -/
def heightDist (height hmin hmax : Int) : Nat :=
  min (height - hmin).natAbs (height - hmax).natAbs

/-- The height-only fallback loop of `_recommend_kids_size`: return the
first size whose range contains the height; otherwise remember the first
size at minimal distance (strict improvement only). -/
def kidsHeightScan (height : Int) (best : Option (String × Nat)) :
    List (String × Int × Int) → Option String × Option (String × Nat)
  | [] => (none, best)
  | (sz, hmin, hmax) :: rest =>
    if hmin ≤ height ∧ height ≤ hmax then (some sz, best)
    else
      let d := heightDist height hmin hmax
      let best' :=
        match best with
        | none => some (sz, d)
        | some (bsz, bd) => if d < bd then some (sz, d) else some (bsz, bd)
      kidsHeightScan height best' rest

/-- `_recommend_kids_size(height_cm, age, size_chart)`.  Note the Python
`if age:` test, which is false both for `None` and for age 0. -/
def recommendKidsSize (height : Int) (age : Option Int) : SizeRecommendation :=
  let exact :=
    if age.getD 0 ≠ 0 then
      kidsAgeMatrix.find? (fun e =>
        e.1.1 ≤ age.getD 0 && age.getD 0 ≤ e.1.2.1 &&
          e.1.2.2.1 ≤ height && height ≤ e.1.2.2.2)
    else none
  match exact with
  | some e =>
    { recommended_size := e.2
      confidence_score := 9 / 10
      reasoning := "Perfect match for age " ++ toString (age.getD 0) ++
        " and height " ++ toString height ++ "cm"
      alternative_sizes := [] }
  | none =>
    match kidsHeightScan height none kidsHeightSizes with
    | (some sz, _) =>
      { recommended_size := sz
        confidence_score := 4 / 5
        reasoning := "Good fit for height " ++ toString height ++ "cm"
        alternative_sizes := [] }
    | (none, some (bsz, bd)) =>
      { recommended_size := bsz
        confidence_score := max (3 / 10) (1 - (bd : ℚ) / 20)
        reasoning := "Approximate fit for height " ++ toString height ++
          "cm (closest available size)"
        alternative_sizes := [] }
    | (none, none) =>
      { recommended_size := "26"
        confidence_score := 1 / 10
        reasoning := "Default kids size - please verify"
        alternative_sizes := ["24", "28"] }

/-- `SizeRecommendationEngine.recommend_size`.  `SIZE_CHARTS` has the single
product key `"CL"` with gender keys `"Men"`, `"Women"`, `"Kids"`. -/
def recommend_size (height_cm weight_kg : Int) (gender product_type : String)
    (age : Option Int) : SizeRecommendation :=
  if product_type ≠ "CL" then
    { recommended_size := "M"
      confidence_score := 1 / 10
      reasoning := "Unknown product type: " ++ product_type
      alternative_sizes := ["S", "L"] }
  else if gender ≠ "Men" ∧ gender ≠ "Women" ∧ gender ≠ "Kids" then
    { recommended_size := "M"
      confidence_score := 1 / 10
      reasoning := "Unknown gender: " ++ gender
      alternative_sizes := ["S", "L"] }
  else if gender = "Kids" then recommendKidsSize height_cm age
  else if gender = "Men" then recommendAdultSize height_cm weight_kg menMatrix
  else recommendAdultSize height_cm weight_kg womenMatrix

end SizeEngine

/-! ## Decimal rendering, for the parser round-trip property -/

/-- Decimal digits of `n` (most significant first), as Python's `str(n)`
renders a non-negative integer. -/
def natChars (n : Nat) : List Char :=
  if _h : n < 10 then [Char.ofNat (48 + n)]
  else natChars (n / 10) ++ [Char.ofNat (48 + n % 10)]
decreasing_by exact Nat.div_lt_self (by omega) (by decide)

/-- The f-string of the round-trip property: `f"{h} см {w} кг"`. -/
def renderHW (h w : Nat) : List Char :=
  natChars h ++ " см ".data ++ natChars w ++ " кг".data

/-- The affirmative set exactly as the specification lists it
(`да`, `иә`, `yes`, `y`) — for comparison with the code's `yesWords`. -/
def specYesWords : List (List Char) :=
  ["да".data, "иә".data, "yes".data, "y".data]

/-- The negative set exactly as the specification lists it
(`нет`, `жоқ`, `no`, `n`) — for comparison with the code's `noWords`. -/
def specNoWords : List (List Char) :=
  ["нет".data, "жоқ".data, "no".data, "n".data]

/-- The first token that belongs to either the affirmative or the negative
word set, scanning left to right. -/
def firstDecisiveToken (toks : List (List Char)) : Option (List Char) :=
  toks.find? (fun t => WaWebhook.yesWords.contains t || WaWebhook.noWords.contains t)

/-! ## Persisted schema (`scripts/crm_db_migrations_phase2.py`) -/

/-- The declared shape of one SQLite table: its columns, the primary-key
columns, and any `UNIQUE` constraints. -/
structure TableSpec where
  name : String
  columns : List String
  primaryKey : List String
  uniqueConstraints : List (List String)
  deriving DecidableEq, Repr

/-- The `wa_outbox` table exactly as `TABLE_SQL` creates it: `id` is the
primary key and no other uniqueness constraint is declared. -/
def wa_outbox_table : TableSpec :=
  { name := "wa_outbox"
    columns := ["id", "order_id", "to_phone", "template", "payload_json",
                "status", "created_at"]
    primaryKey := ["id"]
    uniqueConstraints := [] }

/-! ## Store, dispatcher and workflow engine
(`integrations/whatsapp_api.py`, `scripts/size_workflow.py`) -/

/-- The `status` column of `wa_outbox`. -/
inductive WAStatus
  | DRY_RUN
  | SENT
  | ERROR
  deriving DecidableEq, Repr

/-- A row of `customers` (`id`, `phone`; `phone` is nullable). -/
structure Customer where
  id : String
  phone : Option String
  deriving DecidableEq, Repr

/-- A row of `wa_outbox` (both `order_id` and `template` are nullable, as
`_insert_wa_outbox` inserts whatever the payload carries). -/
structure OutboxRow where
  order_id : Option String
  to_phone : String
  template : Option String
  status : WAStatus
  deriving DecidableEq, Repr

/-- A row of `wa_inbox`: the sender phone, the stored `parsed_json`, and
its `created_at` timestamp (a number; larger = later). -/
structure InboxRow where
  from_phone : String
  parsed : WaWebhook.Parsed
  created_at : Nat
  deriving DecidableEq, Repr

/-- A row of `size_recommendations`. -/
structure RecRow where
  order_id : String
  recommended_size : String
  confidence : ℚ
  height : Int
  weight : Int
  final_size : Option String
  created_at : Nat
  deriving DecidableEq, Repr

/-- A row of `workflows` (`order_id` is the primary key; `state` is TEXT). -/
structure WorkflowRow where
  order_id : String
  state : String
  deriving DecidableEq, Repr

/-- A row of `sales`, as far as `get_sku_key` reads it. -/
structure SaleRow where
  orderid : String
  sku_key : Option String
  deriving DecidableEq, Repr

/-- The SQLite database.  `clock` models the wall clock used for
`created_at` of inserted `size_recommendations` rows (strictly increasing
per insert). -/
structure Store where
  customers : List Customer
  wa_outbox : List OutboxRow
  wa_inbox : List InboxRow
  size_recommendations : List RecRow
  workflows : List WorkflowRow
  sales : List SaleRow
  clock : Nat
  deriving DecidableEq, Repr

/-- The database plus the two effects of `send_message` outside SQLite:
files written under `outbox/api_calls` (`artifacts`) and HTTP requests to
the vendor (`netCalls`). -/
structure World where
  db : Store
  netCalls : Nat
  artifacts : Nat
  deriving DecidableEq, Repr

/-- The `WHATSAPP_VENDOR` environment value: `twilio`, `d360`, or anything
else (for which `send_message` records an error without a network call). -/
inductive Vendor
  | twilio
  | d360
  | other
  deriving DecidableEq, Repr

/-- `_insert_wa_outbox`: appends one row. -/
def insertOutbox (db : Store) (r : OutboxRow) : Store :=
  { db with wa_outbox := db.wa_outbox ++ [r] }

/-- `send_message(to, text, template_id, variables, dry_run, order_id)` from
`integrations/whatsapp_api.py`.  In dry-run mode a JSON artifact is written
and a `DRY_RUN` row inserted, with no network call.  In live mode a known
vendor makes one HTTP call whose success is decided by the oracle at the
current call index (`SENT` on success, `ERROR` on failure, both recorded);
an unknown vendor records `ERROR` without any call.  The `text` and
`variables` arguments end up only in `payload_json`, which no query of the
engine reads, so they are not stored in the model row. -/
def send_message (vendor : Vendor) (oracle : Nat → Bool) (toPhone : String)
    (template_id : Option String) (dry_run : Bool) (order_id : Option String)
    (w : World) : World × WAStatus :=
  if dry_run then
    ({ w with
        db := insertOutbox w.db ⟨order_id, toPhone, template_id, WAStatus.DRY_RUN⟩
        artifacts := w.artifacts + 1 },
      WAStatus.DRY_RUN)
  else
    match vendor with
    | Vendor.other =>
      ({ w with
          db := insertOutbox w.db ⟨order_id, toPhone, template_id, WAStatus.ERROR⟩ },
        WAStatus.ERROR)
    | _ =>
      let st := if oracle w.netCalls then WAStatus.SENT else WAStatus.ERROR
      ({ w with
          db := insertOutbox w.db ⟨order_id, toPhone, template_id, st⟩
          netCalls := w.netCalls + 1 },
        st)

/-- The `flags` object of `STATE.json`, as far as the engine reads it. -/
structure FlagsFile where
  dry_run : Option Bool
  deriving DecidableEq, Repr

/-- The flags the engine actually uses. -/
structure Flags where
  dry_run : Bool
  deriving DecidableEq, Repr

/-- `load_flags()` from `scripts/size_workflow.py` combined with the
`flags.get("dry_run", True)` read in `process_once`: a missing or unreadable
`STATE.json` (`none`) yields `dry_run = True`, and so does a file without
the key. -/
def load_flags : Option FlagsFile → Flags
  | none => { dry_run := true }
  | some f => { dry_run := f.dry_run.getD true }

/-- Workflow state constants from `scripts/size_workflow.py`. -/
def STATE_NEW : String := "NEW"

def STATE_WAITING_SIZE_INFO : String := "WAITING_SIZE_INFO"

def STATE_PROPOSING_SIZE : String := "PROPOSING_SIZE"

def STATE_WAITING_CONFIRM : String := "WAITING_CONFIRM"

def STATE_CONFIRMED : String := "CONFIRMED"

/-- `get_customer_phone`: the first `customers` row with this id, only if
its phone is non-null and non-empty (Python truthiness of `row[0]`). -/
def get_customer_phone (db : Store) (order_id : String) : Option String :=
  match db.customers.find? (fun c => c.id == order_id) with
  | some c =>
    match c.phone with
    | some p => if p = "" then none else some p
    | none => none
  | none => none

/-- `get_sku_key`: first `sales` row for the order, if its `sku_key` is
non-null and non-empty. -/
def get_sku_key (db : Store) (order_id : String) : Option String :=
  match db.sales.find? (fun s => s.orderid == order_id) with
  | some s =>
    match s.sku_key with
    | some k => if k = "" then none else some k
    | none => none
  | none => none

/-- `wa_outbox_sent`: does any `wa_outbox` row (of any status) exist for
this `(order_id, template)` pair? -/
def wa_outbox_sent (db : Store) (order_id template : String) : Bool :=
  db.wa_outbox.any (fun r =>
    r.order_id == some order_id && r.template == some template)

/-- The inbox query shared by both `find_latest_*` helpers:
`WHERE from_phone=? ORDER BY created_at DESC LIMIT 50`. -/
def inboxDesc (db : Store) (phone : String) : List InboxRow :=
  (sortByDesc InboxRow.created_at
    (db.wa_inbox.filter (fun r => r.from_phone == phone))).take 50

/-- The scan inside `find_latest_inbox_with_measurements`: the first row
whose parsed JSON has both `height_cm` and `weight_kg`. -/
def findMeas : List InboxRow → Option (Int × Int)
  | [] => none
  | r :: rs =>
    match r.parsed.height_cm, r.parsed.weight_kg with
    | some h, some w => some (h, w)
    | _, _ => findMeas rs

/-- `find_latest_inbox_with_measurements(conn, phone)`, reduced to the two
values the caller uses. -/
def find_latest_inbox_with_measurements (db : Store) (phone : String) :
    Option (Int × Int) :=
  findMeas (inboxDesc db phone)

/-- The scan inside `find_latest_confirmation`: the first row whose parsed
`confirmation` is `"yes"` or `"no"`. -/
def findConf : List InboxRow → Option String
  | [] => none
  | r :: rs =>
    match r.parsed.confirmation with
    | some c => if c = "yes" ∨ c = "no" then some c else findConf rs
    | none => findConf rs

/-- `find_latest_confirmation(conn, phone)`. -/
def find_latest_confirmation (db : Store) (phone : String) : Option String :=
  findConf (inboxDesc db phone)

/-- `compute_recommendation(height_cm, weight_kg, sku_key)`: gender and
product type are hardcoded to `"Men"` / `"CL"`; `sku_key` is accepted but
unused.  (The Python `except` fallback to `("M", 0.2)` is unreachable in
the model, where the engine is total.) -/
def compute_recommendation (height_cm weight_kg : Int)
    (_sku_key : Option String) : String × ℚ :=
  let r := SizeEngine.recommend_size height_cm weight_kg "Men" "CL" none
  (r.recommended_size, r.confidence_score)

/-- `upsert_size_reco`: an unconditional `INSERT` into
`size_recommendations`, stamped with the current clock. -/
def upsert_size_reco (db : Store) (order_id rec_size : String)
    (confidence : ℚ) (height weight : Int) (final_size : Option String) :
    Store :=
  { db with
      size_recommendations := db.size_recommendations ++
        [⟨order_id, rec_size, confidence, height, weight, final_size, db.clock⟩]
      clock := db.clock + 1 }

/-- The list-level effect of `UPDATE workflows SET state=? WHERE
order_id=?`: every row with the given id gets the new state. -/
def setStateList (order_id new_state : String) (ws : List WorkflowRow) :
    List WorkflowRow :=
  ws.map (fun r =>
    if r.order_id == order_id then { r with state := new_state } else r)

/-- `update_workflow_state` (the `updated_at` column influences nothing
and is not modelled). -/
def update_workflow_state (db : Store) (order_id new_state : String) :
    Store :=
  { db with workflows := setStateList order_id new_state db.workflows }

/-- The `SELECT recommended_size, height, weight FROM size_recommendations
WHERE order_id=? ORDER BY created_at DESC LIMIT 1` query of the confirm
branch. -/
def latestReco (db : Store) (order_id : String) : Option RecRow :=
  (sortByDesc RecRow.created_at
    (db.size_recommendations.filter (fun r => r.order_id == order_id))).head?

/-- The per-state counts `process_once` reports (computed before the three
scans); no transition logic depends on them. -/
def stateCount (db : Store) (state : String) : Nat :=
  (db.workflows.filter (fun r => r.state == state)).length

/-- The `if not wa_outbox_sent(...): send_message(...)` pattern shared by
all three scan bodies: send the template unless some outbox row for
`(order_id, template)` already exists. -/
def guardedSend (vendor : Vendor) (oracle : Nat → Bool) (dry_run : Bool)
    (w : World) (order_id template phone : String) : World :=
  if wa_outbox_sent w.db order_id template then w
  else (send_message vendor oracle phone (some template) dry_run
    (some order_id) w).1

/-- Body of the first loop of `process_once` (`NEW → WAITING_SIZE_INFO`):
skip orders without a known phone; send `size_check` unless some outbox row
for it exists; then advance the state. -/
def step1 (vendor : Vendor) (oracle : Nat → Bool) (dry_run : Bool)
    (w : World) (order_id : String) : World :=
  match get_customer_phone w.db order_id with
  | none => w
  | some phone =>
    let w1 := guardedSend vendor oracle dry_run w order_id "size_check" phone
    { w1 with db := update_workflow_state w1.db order_id STATE_WAITING_SIZE_INFO }

/-- Body of the second loop (`WAITING_SIZE_INFO → WAITING_CONFIRM`):
needs a phone and a latest inbox row carrying both measurements; computes
and snapshots a recommendation, sends `size_confirm` unless some outbox row
for it exists, and advances the state. -/
def step2 (vendor : Vendor) (oracle : Nat → Bool) (dry_run : Bool)
    (w : World) (order_id : String) : World :=
  match get_customer_phone w.db order_id with
  | none => w
  | some phone =>
    match find_latest_inbox_with_measurements w.db phone with
    | none => w
    | some (height, weight) =>
      let sku_key := get_sku_key w.db order_id
      let rc := compute_recommendation height weight sku_key
      let w1 := { w with
        db := upsert_size_reco w.db order_id rc.1 rc.2 height weight none }
      let w2 := guardedSend vendor oracle dry_run w1 order_id "size_confirm" phone
      { w2 with db := update_workflow_state w2.db order_id STATE_WAITING_CONFIRM }

/-- Body of the third loop (`WAITING_CONFIRM → CONFIRMED` on yes, back to
`WAITING_SIZE_INFO` on no): on yes, copy the latest recommendation (if one
exists) into a new snapshot row with `final_size` set and confidence 1.0;
on no, send `size_check_again` unless some outbox row for it exists. -/
def step3 (vendor : Vendor) (oracle : Nat → Bool) (dry_run : Bool)
    (w : World) (order_id : String) : World :=
  match get_customer_phone w.db order_id with
  | none => w
  | some phone =>
    match find_latest_confirmation w.db phone with
    | none => w
    | some conf =>
      if conf = "yes" then
        let w1 :=
          match latestReco w.db order_id with
          | some r =>
            { w with
                db := upsert_size_reco w.db order_id r.recommended_size 1
                  r.height r.weight (some r.recommended_size) }
          | none => w
        { w1 with db := update_workflow_state w1.db order_id STATE_CONFIRMED }
      else if conf = "no" then
        let w1 := guardedSend vendor oracle dry_run w order_id
          "size_check_again" phone
        { w1 with db := update_workflow_state w1.db order_id STATE_WAITING_SIZE_INFO }
      else w

/-- `SELECT order_id FROM workflows WHERE state=?` (a `fetchall` snapshot
taken before the loop body runs). -/
def fetchOrders (db : Store) (state : String) : List String :=
  (db.workflows.filter (fun r => r.state == state)).map WorkflowRow.order_id

/-- Run one loop body over a snapshot list of order ids. -/
def runOrders (step : World → String → World) : World → List String → World
  | w, [] => w
  | w, o :: os => runOrders step (step w o) os

/-- `process_once()` from `scripts/size_workflow.py`: read the flags, then
run the three per-state scans in order, each over a fresh snapshot of the
orders currently in the scanned state. -/
def process_once (flagsFile : Option FlagsFile) (vendor : Vendor)
    (oracle : Nat → Bool) (w : World) : World :=
  let dry_run := (load_flags flagsFile).dry_run
  let w1 := runOrders (step1 vendor oracle dry_run) w
    (fetchOrders w.db STATE_NEW)
  let w2 := runOrders (step2 vendor oracle dry_run) w1
    (fetchOrders w1.db STATE_WAITING_SIZE_INFO)
  let w3 := runOrders (step3 vendor oracle dry_run) w2
    (fetchOrders w2.db STATE_WAITING_CONFIRM)
  w3

/-! ## Derived counting functions and invariants used by the claims -/

/-- Number of `wa_outbox` rows for a given `(order_id, template)` pair
(any status). -/
def obCount (db : Store) (order_id template : String) : Nat :=
  (db.wa_outbox.filter (fun r =>
    r.order_id == some order_id && r.template == some template)).length

/-- Number of `wa_outbox` rows for the pair whose status is `SENT` or
`DRY_RUN`. -/
def obSentDryCount (db : Store) (order_id template : String) : Nat :=
  (db.wa_outbox.filter (fun r =>
    r.order_id == some order_id && r.template == some template &&
      (r.status == WAStatus.SENT || r.status == WAStatus.DRY_RUN))).length

/-- The at-most-one-attempt invariant: at most one outbox row per
`(order_id, template)` pair. -/
def AtMostOnePerPair (db : Store) : Prop :=
  ∀ order_id template, obCount db order_id template ≤ 1

/-- `workflows.order_id` is a primary key. -/
def WorkflowsWF (db : Store) : Prop :=
  (db.workflows.map WorkflowRow.order_id).Nodup

/-- States reachable from a world by any sequence of batch ticks, with
arbitrary flag files, vendors and network outcomes at each tick. -/
inductive ReachableByTicks : World → World → Prop
  | refl (w : World) : ReachableByTicks w w
  | tick (w₀ w : World) (flagsFile : Option FlagsFile) (vendor : Vendor)
      (oracle : Nat → Bool) :
      ReachableByTicks w₀ w →
      ReachableByTicks w₀ (process_once flagsFile vendor oracle w)

/-- The state of the first row with a given id in a workflow row list. -/
def rowState (ws : List WorkflowRow) (order_id : String) : Option String :=
  (ws.find? (fun r => r.order_id == order_id)).map WorkflowRow.state

/-- The workflow state of an order (the state of the first `workflows` row
with that id). -/
def stateOf (db : Store) (order_id : String) : Option String :=
  rowState db.workflows order_id

/-- The `size_recommendations` rows of one order. -/
def recsOf (db : Store) (order_id : String) : List RecRow :=
  db.size_recommendations.filter (fun r => r.order_id == order_id)

/-- An order's measurements as the tick sees them: the phone lookup
followed by the latest-inbox query. -/
def measOf (db : Store) (order_id : String) : Option (Int × Int) :=
  match get_customer_phone db order_id with
  | some p => find_latest_inbox_with_measurements db p
  | none => none

/-- An order's latest confirmation as the tick sees it. -/
def confOf (db : Store) (order_id : String) : Option String :=
  match get_customer_phone db order_id with
  | some p => find_latest_confirmation db p
  | none => none

/-- The hypothesis under which the double tick is silent: every order
sitting in `WAITING_CONFIRM` with a known phone and available measurements
already has an outbox row for `size_confirm`.  Every state the engine
itself produces satisfies this, since entering `WAITING_CONFIRM` through
the second scan records such a row. -/
def ConfirmRowsPresent (db : Store) : Prop :=
  ∀ r ∈ db.workflows, r.state = STATE_WAITING_CONFIRM →
    (get_customer_phone db r.order_id).isSome →
    (measOf db r.order_id).isSome →
    wa_outbox_sent db r.order_id "size_confirm" = true

/-- The invariant a completed tick leaves behind, which makes the next
tick silent on the outbox and the workflow states: finished `NEW` orders
have no phone; finished `WAITING_CONFIRM` orders have no decidable
confirmation (or no phone); and a finished `WAITING_SIZE_INFO` order that
does have measurements got there through the answer-was-no branch, so its
confirmation is `"no"` and both `size_confirm` and `size_check_again`
already have outbox rows. -/
def Stable (db : Store) : Prop :=
  ∀ r ∈ db.workflows,
    (r.state = STATE_NEW → get_customer_phone db r.order_id = none) ∧
    (r.state = STATE_WAITING_CONFIRM →
      get_customer_phone db r.order_id = none ∨ confOf db r.order_id = none) ∧
    (r.state = STATE_WAITING_SIZE_INFO → (measOf db r.order_id).isSome →
      confOf db r.order_id = some "no" ∧
      wa_outbox_sent db r.order_id "size_confirm" = true ∧
      wa_outbox_sent db r.order_id "size_check_again" = true)

/-- The tables the tick reads but never writes. -/
def ReadOnlyEq (db db' : Store) : Prop :=
  db'.customers = db.customers ∧ db'.wa_inbox = db.wa_inbox ∧
    db'.sales = db.sales

/-! ## Concrete worlds used by counterexamples and witnesses -/

/-- A world with empty tables. -/
def emptyWorld : World :=
  { db := { customers := [], wa_outbox := [], wa_inbox := [],
            size_recommendations := [], workflows := [], sales := [],
            clock := 0 }
    netCalls := 0
    artifacts := 0 }

/-- A parsed payload with no fields. -/
def noParsed : WaWebhook.Parsed :=
  { height_cm := none, weight_kg := none, confirmation := none }

/-- Counterexample store for the double-tick claim: one order stuck in
`WAITING_CONFIRM` whose customer answered `"no"` in a message that also
carries measurements, with an empty outbox. -/
def pingPongWorld : World :=
  { db := { customers := [⟨"o1", some "+7700"⟩]
            wa_outbox := []
            wa_inbox := [⟨"+7700",
              { height_cm := some 175, weight_kg := some 80,
                confirmation := some "no" }, 5⟩]
            size_recommendations := []
            workflows := [⟨"o1", "WAITING_CONFIRM"⟩]
            sales := []
            clock := 10 }
    netCalls := 0
    artifacts := 0 }

/-- Counterexample store for the error-retry claim: the only outbox row
for `("o1", "size_check")` has status `ERROR`, and the order is `NEW` with
a known phone. -/
def errorRowWorld : World :=
  { db := { customers := [⟨"o1", some "+7700"⟩]
            wa_outbox := [⟨some "o1", "+7700", some "size_check",
              WAStatus.ERROR⟩]
            wa_inbox := []
            size_recommendations := []
            workflows := [⟨"o1", "NEW"⟩]
            sales := []
            clock := 0 }
    netCalls := 0
    artifacts := 0 }

/-- Witness store for the one-tick pipeline claim: a `NEW` order with a
known phone whose inbox already holds measurements and a `"yes"`. -/
def pipelineWorld : World :=
  { db := { customers := [⟨"o1", some "+7700"⟩]
            wa_outbox := []
            wa_inbox := [⟨"+7700",
              { height_cm := some 175, weight_kg := some 80,
                confirmation := some "yes" }, 5⟩]
            size_recommendations := []
            workflows := [⟨"o1", "NEW"⟩]
            sales := []
            clock := 0 }
    netCalls := 0
    artifacts := 0 }

/-- Witness store for the missing-snapshot claim: an order waiting for
confirmation, a `"yes"` in the inbox, and no `size_recommendations` row. -/
def noRecoWorld : World :=
  { db := { customers := [⟨"o1", some "+7700"⟩]
            wa_outbox := [⟨some "o1", "+7700", some "size_check",
              WAStatus.DRY_RUN⟩,
              ⟨some "o1", "+7700", some "size_confirm", WAStatus.DRY_RUN⟩]
            wa_inbox := [⟨"+7700",
              { height_cm := none, weight_kg := none,
                confirmation := some "yes" }, 7⟩]
            size_recommendations := []
            workflows := [⟨"o1", "WAITING_CONFIRM"⟩]
            sales := []
            clock := 3 }
    netCalls := 0
    artifacts := 0 }

/-!
# Theorems

First the generic lemmas about the stable descending sort, then the lemmas
and theorems settling the claims.
-/

section SortLemmas

variable {α β : Type} [LinearOrder β] (key : α → β)

theorem mem_insDesc (x y : α) (l : List α) :
    y ∈ insDesc key x l ↔ y = x ∨ y ∈ l := by
  induction l with
  | nil => simp [insDesc]
  | cons z zs ih =>
    by_cases h : key z < key x
    · simp [insDesc, h]
    · simp [insDesc, h, ih]
      tauto

theorem sorted_insDesc (x : α) (l : List α)
    (h : l.Sorted (fun a b => key b ≤ key a)) :
    (insDesc key x l).Sorted (fun a b => key b ≤ key a) := by
  induction l with
  | nil => simp [insDesc]
  | cons z zs ih =>
    rw [List.sorted_cons] at h
    by_cases hzx : key z < key x
    · unfold insDesc
      rw [if_pos hzx, List.sorted_cons]
      refine ⟨?_, ?_⟩
      · intro y hy
        rcases List.mem_cons.1 hy with hy | hy
        · exact hy ▸ le_of_lt hzx
        · exact le_trans (h.1 y hy) (le_of_lt hzx)
      · rw [List.sorted_cons]
        exact h
    · unfold insDesc
      rw [if_neg hzx, List.sorted_cons]
      refine ⟨?_, ih h.2⟩
      intro y hy
      rcases (mem_insDesc key x y zs).1 hy with hy | hy
      · exact hy ▸ le_of_not_lt hzx
      · exact h.1 y hy

theorem mem_sortByDesc_aux (l acc : List α) (y : α) :
    y ∈ l.foldl (fun a x => insDesc key x a) acc ↔ y ∈ acc ∨ y ∈ l := by
  induction l generalizing acc with
  | nil => simp
  | cons z zs ih =>
    rw [List.foldl_cons, ih]
    rw [mem_insDesc]
    simp
    tauto

theorem mem_sortByDesc (l : List α) (y : α) :
    y ∈ sortByDesc key l ↔ y ∈ l := by
  unfold sortByDesc
  rw [mem_sortByDesc_aux]
  simp

theorem sorted_sortByDesc_aux (l acc : List α)
    (h : acc.Sorted (fun a b => key b ≤ key a)) :
    (l.foldl (fun a x => insDesc key x a) acc).Sorted
      (fun a b => key b ≤ key a) := by
  induction l generalizing acc with
  | nil => exact h
  | cons z zs ih => exact ih _ (sorted_insDesc key z acc h)

theorem sorted_sortByDesc (l : List α) :
    (sortByDesc key l).Sorted (fun a b => key b ≤ key a) :=
  sorted_sortByDesc_aux key l [] (by simp)

end SortLemmas

/-!
## C4 — the (175, 80, Men, CL) scenario

The scoring loop gives score 1.0 to the entry `(170, 175, 70, 80) : M`
(height 175 and weight 80 are both inside, bounds inclusive) before it ever
reaches an `L` entry, so the engine answers `M`, not `L`. -/

/-- C4, counterexample: with height 175, weight 80, gender `"Men"` and
product `"CL"`, the engine does not return `"L"` — it returns `"M"`. -/
theorem C4_scenario_counterexample :
    (SizeEngine.recommend_size 175 80 "Men" "CL" none).recommended_size = "M" ∧
    ¬ (SizeEngine.recommend_size 175 80 "Men" "CL" none).recommended_size = "L" := by
  decide

/-- C4 (amended): with height 175, weight 80, gender `"Men"`, product
`"CL"`, the engine returns recommended size `"M"` — the first
maximal-scoring entry `(170, 175, 70, 80)` of the Men table, both
dimensions lying inside their ranges — with confidence 1.0 (> 0.6); entries
are scored 0.5 per dimension inside the range, else
`max(0, 0.5 − distance/divisor)`, the best entry winning and ties broken by
first-encountered order. -/
theorem C4_scenario_amended :
    (SizeEngine.recommend_size 175 80 "Men" "CL" none).recommended_size = "M" ∧
    (SizeEngine.recommend_size 175 80 "Men" "CL" none).confidence_score = 1 ∧
    (3 : ℚ) / 5 < (SizeEngine.recommend_size 175 80 "Men" "CL" none).confidence_score := by
  decide

/-!
## C5 — parser round-trip for strings of the form `f"{h} см {w} кг"` -/

theorem isDigit_digitChar (d : Nat) (hd : d < 10) :
    (Char.ofNat (48 + d)).isDigit = true := by
  interval_cases d <;> decide

theorem isPySpace_digitChar (d : Nat) (hd : d < 10) :
    WaWebhook.isPySpace (Char.ofNat (48 + d)) = false := by
  interval_cases d <;> decide

theorem lowerChar_digitChar (d : Nat) (hd : d < 10) :
    WaWebhook.lowerChar (Char.ofNat (48 + d)) = Char.ofNat (48 + d) := by
  interval_cases d <;> decide

theorem digitChar_beq_ka (d : Nat) (hd : d < 10) :
    (Char.ofNat (48 + d) == 'к') = false := by
  interval_cases d <;> decide

theorem digitChar_beq_klat (d : Nat) (hd : d < 10) :
    (Char.ofNat (48 + d) == 'k') = false := by
  interval_cases d <;> decide

theorem toNat_digitChar (d : Nat) (hd : d < 10) :
    (Char.ofNat (48 + d)).toNat = 48 + d := by
  interval_cases d <;> decide

theorem digitsVal_three (d2 d1 d0 : Nat) (h2 : d2 < 10) (h1 : d1 < 10)
    (h0 : d0 < 10) :
    WaWebhook.digitsVal
      [Char.ofNat (48 + d2), Char.ofNat (48 + d1), Char.ofNat (48 + d0)]
      = 100 * d2 + 10 * d1 + d0 := by
  simp [WaWebhook.digitsVal, toNat_digitChar, h2, h1, h0]
  try omega

theorem digitsVal_two (d1 d0 : Nat) (h1 : d1 < 10) (h0 : d0 < 10) :
    WaWebhook.digitsVal [Char.ofNat (48 + d1), Char.ofNat (48 + d0)]
      = 10 * d1 + d0 := by
  simp [WaWebhook.digitsVal, toNat_digitChar, h1, h0]
  try omega

theorem natChars_two (n : Nat) (h1 : 10 ≤ n) (h2 : n < 100) :
    natChars n = [Char.ofNat (48 + n / 10), Char.ofNat (48 + n % 10)] := by
  rw [natChars, dif_neg (by omega)]
  rw [natChars, dif_pos (by omega : n / 10 < 10)]
  rfl

theorem natChars_three (n : Nat) (h1 : 100 ≤ n) (h2 : n < 1000) :
    natChars n = [Char.ofNat (48 + n / 100), Char.ofNat (48 + n / 10 % 10),
      Char.ofNat (48 + n % 10)] := by
  rw [natChars, dif_neg (by omega)]
  rw [natChars_two (n / 10) (by omega) (by omega)]
  rw [Nat.div_div_eq_div_mul]
  rfl

theorem searchNumUnit_cons_of_not_digit (u1 u2 : List Char) (c : Char)
    (s : List Char) (h : c.isDigit = false) :
    WaWebhook.searchNumUnit u1 u2 (c :: s) = WaWebhook.searchNumUnit u1 u2 s := by
  match s with
  | [] => simp [WaWebhook.searchNumUnit, WaWebhook.matchDigitsUnit, h]
  | [b] => simp [WaWebhook.searchNumUnit, WaWebhook.matchDigitsUnit, h]
  | b :: c' :: s'' => simp [WaWebhook.searchNumUnit, WaWebhook.matchDigitsUnit, h]

theorem heightSearch_shape (d2 d1 d0 : Nat) (h2 : d2 < 10) (h1 : d1 < 10)
    (h0 : d0 < 10) (t : List Char) :
    WaWebhook.heightSearch (Char.ofNat (48 + d2) :: Char.ofNat (48 + d1) ::
        Char.ofNat (48 + d0) :: ' ' :: 'с' :: 'м' :: t)
      = some (100 * d2 + 10 * d1 + d0) := by
  simp [WaWebhook.heightSearch, WaWebhook.searchNumUnit,
    WaWebhook.matchDigitsUnit, WaWebhook.unitAt, List.dropWhile,
    isDigit_digitChar, h2, h1, h0,
    show WaWebhook.isPySpace ' ' = true from rfl,
    show WaWebhook.isPySpace 'с' = false from rfl,
    show WaWebhook.lowerChar 'с' = 'с' from rfl,
    show WaWebhook.lowerChar 'м' = 'м' from rfl,
    digitsVal_three d2 d1 d0 h2 h1 h0]

theorem weightSearch_skip_hcm (d2 d1 d0 : Nat) (h2 : d2 < 10) (h1 : d1 < 10)
    (h0 : d0 < 10) (t : List Char) :
    WaWebhook.weightSearch (Char.ofNat (48 + d2) :: Char.ofNat (48 + d1) ::
        Char.ofNat (48 + d0) :: ' ' :: 'с' :: 'м' :: t)
      = WaWebhook.weightSearch t := by
  unfold WaWebhook.weightSearch
  rw [WaWebhook.searchNumUnit]
  rw [show WaWebhook.matchDigitsUnit "кг".data "kg".data
      (Char.ofNat (48 + d2) :: Char.ofNat (48 + d1) ::
        Char.ofNat (48 + d0) :: ' ' :: 'с' :: 'м' :: t) = none from by
    simp [WaWebhook.matchDigitsUnit, WaWebhook.unitAt, List.dropWhile,
      isDigit_digitChar, isPySpace_digitChar, lowerChar_digitChar,
      digitChar_beq_ka, digitChar_beq_klat, h2, h1, h0,
      show WaWebhook.isPySpace ' ' = true from rfl,
      show WaWebhook.isPySpace 'с' = false from rfl,
      show WaWebhook.lowerChar 'с' = 'с' from rfl,
      show WaWebhook.lowerChar 'м' = 'м' from rfl]]
  rw [WaWebhook.searchNumUnit]
  rw [show WaWebhook.matchDigitsUnit "кг".data "kg".data
      (Char.ofNat (48 + d1) :: Char.ofNat (48 + d0) :: ' ' :: 'с' :: 'м' :: t)
        = none from by
    simp [WaWebhook.matchDigitsUnit, WaWebhook.unitAt, List.dropWhile,
      isDigit_digitChar, isPySpace_digitChar, lowerChar_digitChar,
      digitChar_beq_ka, digitChar_beq_klat, h1, h0,
      show WaWebhook.isPySpace ' ' = true from rfl,
      show WaWebhook.isPySpace 'с' = false from rfl,
      show WaWebhook.lowerChar 'с' = 'с' from rfl,
      show WaWebhook.lowerChar 'м' = 'м' from rfl]]
  rw [WaWebhook.searchNumUnit]
  rw [show WaWebhook.matchDigitsUnit "кг".data "kg".data
      (Char.ofNat (48 + d0) :: ' ' :: 'с' :: 'м' :: t) = none from by
    simp [WaWebhook.matchDigitsUnit, isDigit_digitChar, h0]]
  rw [searchNumUnit_cons_of_not_digit _ _ ' ' _ (by decide)]
  rw [searchNumUnit_cons_of_not_digit _ _ 'с' _ (by decide)]
  rw [searchNumUnit_cons_of_not_digit _ _ 'м' _ (by decide)]

theorem weightSearch_cons_of_not_digit (c : Char) (s : List Char)
    (h : c.isDigit = false) :
    WaWebhook.weightSearch (c :: s) = WaWebhook.weightSearch s :=
  searchNumUnit_cons_of_not_digit _ _ c s h

theorem weightSearch_shape3 (d2 d1 d0 : Nat) (h2 : d2 < 10) (h1 : d1 < 10)
    (h0 : d0 < 10) (t : List Char) :
    WaWebhook.weightSearch (Char.ofNat (48 + d2) :: Char.ofNat (48 + d1) ::
        Char.ofNat (48 + d0) :: ' ' :: 'к' :: 'г' :: t)
      = some (100 * d2 + 10 * d1 + d0) := by
  simp [WaWebhook.weightSearch, WaWebhook.searchNumUnit,
    WaWebhook.matchDigitsUnit, WaWebhook.unitAt, List.dropWhile,
    isDigit_digitChar, h2, h1, h0,
    show WaWebhook.isPySpace ' ' = true from rfl,
    show WaWebhook.isPySpace 'к' = false from rfl,
    show WaWebhook.lowerChar 'к' = 'к' from rfl,
    show WaWebhook.lowerChar 'г' = 'г' from rfl,
    digitsVal_three d2 d1 d0 h2 h1 h0]

theorem weightSearch_shape2 (d1 d0 : Nat) (h1 : d1 < 10) (h0 : d0 < 10)
    (t : List Char) :
    WaWebhook.weightSearch (Char.ofNat (48 + d1) :: Char.ofNat (48 + d0) ::
        ' ' :: 'к' :: 'г' :: t)
      = some (10 * d1 + d0) := by
  simp [WaWebhook.weightSearch, WaWebhook.searchNumUnit,
    WaWebhook.matchDigitsUnit, WaWebhook.unitAt, List.dropWhile,
    isDigit_digitChar, h1, h0,
    show WaWebhook.isPySpace ' ' = true from rfl,
    show WaWebhook.isPySpace 'к' = false from rfl,
    show WaWebhook.lowerChar 'к' = 'к' from rfl,
    show WaWebhook.lowerChar 'г' = 'г' from rfl,
    digitsVal_two d1 d0 h1 h0]

/-- C5: for every h with 100 ≤ h ≤ 220 and w with 30 ≤ w ≤ 200, parsing
the rendered string `f"{h} см {w} кг"` with `enrich_parsed` recovers
exactly `h` as `height_cm` and exactly `w` as `weight_kg`. -/
theorem C5_parser_round_trip (h w : Nat) (hh1 : 100 ≤ h) (hh2 : h ≤ 220)
    (hw1 : 30 ≤ w) (hw2 : w ≤ 200) :
    (WaWebhook.enrich_parsed (renderHW h w)).height_cm = some (h : Int) ∧
    (WaWebhook.enrich_parsed (renderHW h w)).weight_kg = some (w : Int) := by
  have hrender : renderHW h w =
      Char.ofNat (48 + h / 100) :: Char.ofNat (48 + h / 10 % 10) ::
        Char.ofNat (48 + h % 10) :: ' ' :: 'с' :: 'м' ::
          (' ' :: (natChars w ++ [' ', 'к', 'г'])) := by
    unfold renderHW
    rw [natChars_three h hh1 (by omega)]
    rfl
  have hheight : WaWebhook.heightSearch (renderHW h w) = some h := by
    rw [hrender, heightSearch_shape _ _ _ (by omega) (by omega) (by omega)]
    congr 1
    omega
  have hweight : WaWebhook.weightSearch (renderHW h w) = some w := by
    rw [hrender, weightSearch_skip_hcm _ _ _ (by omega) (by omega) (by omega)]
    rw [weightSearch_cons_of_not_digit ' ' _ (by decide)]
    by_cases hw3 : w < 100
    · rw [natChars_two w (by omega) hw3]
      simp only [List.cons_append, List.nil_append]
      rw [weightSearch_shape2 _ _ (by omega) (by omega)]
      congr 1
      omega
    · rw [natChars_three w (by omega) (by omega)]
      simp only [List.cons_append, List.nil_append]
      rw [weightSearch_shape3 _ _ _ (by omega) (by omega) (by omega)]
      congr 1
      omega
  constructor
  · show (WaWebhook.heightSearch (renderHW h w)).map Int.ofNat = some (h : Int)
    rw [hheight]
    rfl
  · show (WaWebhook.weightSearch (renderHW h w)).map Int.ofNat = some (w : Int)
    rw [hweight]
    rfl

/-- Witness for the C5 round trip at h = 175, w = 80. -/
theorem C5_parser_round_trip_witness :
    (WaWebhook.enrich_parsed (renderHW 175 80)).height_cm = some (175 : Int) ∧
    (WaWebhook.enrich_parsed (renderHW 175 80)).weight_kg = some (80 : Int) :=
  C5_parser_round_trip 175 80 (by decide) (by decide) (by decide) (by decide)

/-!
## C6 — confirmation parsing

The code's token sets contain two spellings the claim omits: `иа` (a
plain-Cyrillic variant of Kazakh `иә`) and `joq` (a Latin transliteration
of `жоқ`).  A message consisting of such a token yields `yes`/`no` where
the claim requires absence. -/

/-- C6, counterexample: `"иа"` is in neither of the claim's two sets, so
per the claim the parser should return absence; the code returns `"yes"`
(and `"joq"` likewise returns `"no"`). -/
theorem C6_confirmation_counterexample :
    WaWebhook.parse_confirmation "иа".data = some "yes" ∧
    specYesWords.contains "иа".data = false ∧
    specNoWords.contains "иа".data = false ∧
    WaWebhook.parse_confirmation "joq".data = some "no" ∧
    specYesWords.contains "joq".data = false ∧
    specNoWords.contains "joq".data = false := by
  decide

theorem confirmScan_eq_find (toks : List (List Char)) :
    WaWebhook.confirmScan toks =
      (firstDecisiveToken toks).map
        (fun t => if WaWebhook.yesWords.contains t then "yes" else "no") := by
  induction toks with
  | nil => rfl
  | cons t rest ih =>
    by_cases hy : t ∈ WaWebhook.yesWords
    · simp [WaWebhook.confirmScan, firstDecisiveToken, List.find?_cons, hy]
    · by_cases hn : t ∈ WaWebhook.noWords
      · simp [WaWebhook.confirmScan, firstDecisiveToken, List.find?_cons, hy, hn]
      · simpa [WaWebhook.confirmScan, firstDecisiveToken, List.find?_cons,
          hy, hn] using ih

/-- C6 (amended): the parser tokenizes the stripped, lowercased text on
word boundaries (Cyrillic letters included); the first token belonging to
either set decides, `yes` for the affirmative set `{да, иә, иа, yes, y}`
and `no` for the negative set `{нет, жоқ, joq, no, n}` — the code carries
the extra spellings `иа` and `joq` beyond the sets the claim lists — and
absence results when no token matches; in particular `да`, `иә`, `yes`
embedded in longer sentences yield `yes` and `нет`, `жоқ`, `no` yield
`no`. -/
theorem C6_confirmation_amended :
    (∀ text : List Char,
      WaWebhook.parse_confirmation text =
        (firstDecisiveToken (WaWebhook.findTokens
            ((WaWebhook.pyStrip text).map WaWebhook.lowerChar))).map
          (fun t => if WaWebhook.yesWords.contains t then "yes" else "no")) ∧
    WaWebhook.parse_confirmation "конечно да, спасибо".data = some "yes" ∧
    WaWebhook.parse_confirmation "иә, дұрыс".data = some "yes" ∧
    WaWebhook.parse_confirmation "ok yes sure".data = some "yes" ∧
    WaWebhook.parse_confirmation "Нет, не подходит".data = some "no" ∧
    WaWebhook.parse_confirmation "жоқ рахмет".data = some "no" ∧
    WaWebhook.parse_confirmation "absolutely no way".data = some "no" ∧
    WaWebhook.parse_confirmation "спасибо, хорошо".data = none := by
  refine ⟨fun text => confirmScan_eq_find _, ?_⟩
  decide

/-!
## C7 — the alternatives list

A former best candidate is appended to the alternatives when displaced,
whatever its score; with `(184, 200)` against the Women table the single
listed alternative `M` has score 1/20 ≤ 0.3. -/

/-- C7, counterexample: with height 184 and weight 200 against the Women
chart a best match (`L`, score 0.3) is found, the output lists the single
alternative `M`, and `M`'s candidate score is 1/20, which does not exceed
the 0.3 threshold. -/
theorem C7_alternatives_counterexample :
    (SizeEngine.recommend_size 184 200 "Women" "CL" none).alternative_sizes
      = ["M"] ∧
    (SizeEngine.adultFold 184 200 SizeEngine.womenMatrix).best
      = some ("L", 3 / 10) ∧
    (SizeEngine.adultFold 184 200 SizeEngine.womenMatrix).alternatives
      = [("M", SizeEngine.candScore 184 200 ⟨170, 175, 55, 65⟩)] ∧
    SizeEngine.candScore 184 200 ⟨170, 175, 55, 65⟩ = 1 / 20 ∧
    ¬ (3 : ℚ) / 10 < 1 / 20 := by
  decide

theorem adultStep_inv (height weight : Int) (acc : SizeEngine.AdultAcc)
    (e : SizeEngine.HWRange × String)
    (h1 : ∀ x ∈ acc.alternatives, (3 : ℚ) / 10 < x.2 ∨ x.2 < acc.best_score)
    (h2 : ∀ s sc, acc.best = some (s, sc) → sc = acc.best_score) :
    (∀ x ∈ (SizeEngine.adultStep height weight acc e).alternatives,
      (3 : ℚ) / 10 < x.2 ∨
        x.2 < (SizeEngine.adultStep height weight acc e).best_score) ∧
    (∀ s sc, (SizeEngine.adultStep height weight acc e).best = some (s, sc) →
      sc = (SizeEngine.adultStep height weight acc e).best_score) := by
  unfold SizeEngine.adultStep
  by_cases hlt : acc.best_score < SizeEngine.candScore height weight e.1
  · rw [if_pos hlt]
    refine ⟨?_, ?_⟩
    · intro x hx
      simp only [List.mem_append] at hx
      rcases hx with hx | hx
      · rcases h1 x hx with h | h
        · exact Or.inl h
        · exact Or.inr (lt_trans h hlt)
      · right
        cases hb : acc.best with
        | none =>
          rw [hb] at hx
          simp at hx
        | some b =>
          rw [hb] at hx
          simp at hx
          subst hx
          have hs := h2 x.1 x.2 (by rw [hb])
          exact hs ▸ hlt
    · intro s sc h
      simp only [Option.some.injEq, Prod.mk.injEq] at h
      exact h.2.symm
  · rw [if_neg hlt]
    by_cases hth : (3 : ℚ) / 10 < SizeEngine.candScore height weight e.1
    · rw [if_pos hth]
      refine ⟨?_, fun s sc h => h2 s sc h⟩
      intro x hx
      simp only [List.mem_append, List.mem_singleton] at hx
      rcases hx with hx | hx
      · exact h1 x hx
      · subst hx
        exact Or.inl hth
    · rw [if_neg hth]
      exact ⟨h1, h2⟩

theorem adultFold_inv (height weight : Int)
    (matrix : List (SizeEngine.HWRange × String)) :
    (∀ x ∈ (SizeEngine.adultFold height weight matrix).alternatives,
      (3 : ℚ) / 10 < x.2 ∨
        x.2 < (SizeEngine.adultFold height weight matrix).best_score) ∧
    (∀ s sc, (SizeEngine.adultFold height weight matrix).best = some (s, sc) →
      sc = (SizeEngine.adultFold height weight matrix).best_score) := by
  unfold SizeEngine.adultFold
  generalize hacc : (⟨none, 0, []⟩ : SizeEngine.AdultAcc) = acc
  have hinv : (∀ x ∈ acc.alternatives,
      (3 : ℚ) / 10 < x.2 ∨ x.2 < acc.best_score) ∧
      (∀ s sc, acc.best = some (s, sc) → sc = acc.best_score) := by
    rw [← hacc]
    exact ⟨by simp, by simp⟩
  clear hacc
  induction matrix generalizing acc with
  | nil => exact hinv
  | cons e es ih =>
    rw [List.foldl_cons]
    exact ih _ (adultStep_inv height weight acc e hinv.1 hinv.2)

/-- C7 (amended): the Men and Women `CL` recommendations go through the
adult matrix loop, and whenever that loop finds a best match the output's
`alternative_sizes` has at most 3 entries, ordered by descending candidate
score; each listed alternative either scores above the 0.3 threshold or is
a formerly-best candidate that a later better entry displaced (recorded
regardless of the threshold, with a score strictly below the final
confidence). -/
theorem C7_alternatives_amended :
    (∀ (height weight : Int) (age : Option Int),
      SizeEngine.recommend_size height weight "Men" "CL" age
        = SizeEngine.recommendAdultSize height weight SizeEngine.menMatrix) ∧
    (∀ (height weight : Int) (age : Option Int),
      SizeEngine.recommend_size height weight "Women" "CL" age
        = SizeEngine.recommendAdultSize height weight SizeEngine.womenMatrix) ∧
    ∀ (height weight : Int) (matrix : List (SizeEngine.HWRange × String))
      (sz : String) (conf : ℚ),
      (SizeEngine.adultFold height weight matrix).best = some (sz, conf) →
      (SizeEngine.recommendAdultSize height weight matrix).alternative_sizes
          = ((sortByDesc Prod.snd
              (SizeEngine.adultFold height weight matrix).alternatives).take 3).map
            Prod.fst ∧
      (SizeEngine.recommendAdultSize height weight matrix).alternative_sizes.length
          ≤ 3 ∧
      ((sortByDesc Prod.snd
          (SizeEngine.adultFold height weight matrix).alternatives).take 3).Sorted
        (fun a b => b.2 ≤ a.2) ∧
      ∀ x ∈ (sortByDesc Prod.snd
          (SizeEngine.adultFold height weight matrix).alternatives).take 3,
        (3 : ℚ) / 10 < x.2 ∨ x.2 < conf := by
  refine ⟨fun height weight age => by simp [SizeEngine.recommend_size],
    fun height weight age => by simp [SizeEngine.recommend_size],
    fun height weight matrix sz conf hbest => ?_⟩
  have hsizes :
      (SizeEngine.recommendAdultSize height weight matrix).alternative_sizes
        = ((sortByDesc Prod.snd
            (SizeEngine.adultFold height weight matrix).alternatives).take 3).map
          Prod.fst := by
    simp only [SizeEngine.recommendAdultSize, hbest]
  refine ⟨hsizes, ?_, ?_, ?_⟩
  · rw [hsizes, List.length_map, List.length_take]
    omega
  · exact List.Pairwise.take (sorted_sortByDesc Prod.snd _)
  · intro x hx
    have hx' : x ∈ (SizeEngine.adultFold height weight matrix).alternatives :=
      (mem_sortByDesc Prod.snd _ x).1 (List.take_subset 3 _ hx)
    have hinv := adultFold_inv height weight matrix
    have hconf : conf = (SizeEngine.adultFold height weight matrix).best_score :=
      hinv.2 sz conf hbest
    rw [hconf]
    exact hinv.1 x hx'

/-- Witness for the C7 amended theorem at height 184, weight 200 against
the Women chart, where the loop's best match is `("L", 3/10)`. -/
theorem C7_alternatives_amended_witness :
    (SizeEngine.adultFold 184 200 SizeEngine.womenMatrix).best
        = some ("L", 3 / 10) ∧
    (SizeEngine.recommendAdultSize 184 200
        SizeEngine.womenMatrix).alternative_sizes.length ≤ 3 :=
  ⟨by decide,
    (C7_alternatives_amended.2.2 184 200 SizeEngine.womenMatrix "L" (3 / 10)
      (by decide)).2.1⟩

/-!
## C8 — a single tick can run an order end to end -/

/-- C8: in the world `pipelineWorld` — order `o1` in state `NEW`, phone
known, inbox already holding both measurements and a `"yes"` — one call of
`process_once` takes the order all the way to `CONFIRMED`, sending both
`size_check` and `size_confirm` on the way, because the three per-state
scans run in sequence inside the same tick and each scan re-queries the
states the previous scan just wrote. -/
theorem C8_single_tick_pipeline :
    stateOf pipelineWorld.db "o1" = some STATE_NEW ∧
    (get_customer_phone pipelineWorld.db "o1").isSome = true ∧
    (measOf pipelineWorld.db "o1").isSome = true ∧
    confOf pipelineWorld.db "o1" = some "yes" ∧
    stateOf (process_once none Vendor.d360 (fun _ => false)
      pipelineWorld).db "o1" = some STATE_CONFIRMED ∧
    wa_outbox_sent (process_once none Vendor.d360 (fun _ => false)
      pipelineWorld).db "o1" "size_check" = true ∧
    wa_outbox_sent (process_once none Vendor.d360 (fun _ => false)
      pipelineWorld).db "o1" "size_confirm" = true := by
  decide

/-!
## Workflow-engine lemmas

Projection lemmas for the store operations, congruence lemmas showing which
tables each query reads, and `rowState` lemmas for the per-order effect of
`UPDATE workflows`. -/

section StoreOps

variable (db : Store) (r : OutboxRow)

@[simp] theorem insertOutbox_customers :
    (insertOutbox db r).customers = db.customers := rfl

@[simp] theorem insertOutbox_wa_inbox :
    (insertOutbox db r).wa_inbox = db.wa_inbox := rfl

@[simp] theorem insertOutbox_sales : (insertOutbox db r).sales = db.sales := rfl

@[simp] theorem insertOutbox_workflows :
    (insertOutbox db r).workflows = db.workflows := rfl

@[simp] theorem insertOutbox_recs :
    (insertOutbox db r).size_recommendations = db.size_recommendations := rfl

@[simp] theorem insertOutbox_clock : (insertOutbox db r).clock = db.clock := rfl

@[simp] theorem insertOutbox_wa_outbox :
    (insertOutbox db r).wa_outbox = db.wa_outbox ++ [r] := rfl

end StoreOps

section UpsertUpdate

variable (db : Store) (o s : String) (c : ℚ) (hgt wgt : Int)
  (fs : Option String)

@[simp] theorem upsert_customers :
    (upsert_size_reco db o s c hgt wgt fs).customers = db.customers := rfl

@[simp] theorem upsert_wa_inbox :
    (upsert_size_reco db o s c hgt wgt fs).wa_inbox = db.wa_inbox := rfl

@[simp] theorem upsert_sales :
    (upsert_size_reco db o s c hgt wgt fs).sales = db.sales := rfl

@[simp] theorem upsert_workflows :
    (upsert_size_reco db o s c hgt wgt fs).workflows = db.workflows := rfl

@[simp] theorem upsert_wa_outbox :
    (upsert_size_reco db o s c hgt wgt fs).wa_outbox = db.wa_outbox := rfl

@[simp] theorem upsert_recs :
    (upsert_size_reco db o s c hgt wgt fs).size_recommendations
      = db.size_recommendations ++ [⟨o, s, c, hgt, wgt, fs, db.clock⟩] := rfl

@[simp] theorem update_customers :
    (update_workflow_state db o s).customers = db.customers := rfl

@[simp] theorem update_wa_inbox :
    (update_workflow_state db o s).wa_inbox = db.wa_inbox := rfl

@[simp] theorem update_sales :
    (update_workflow_state db o s).sales = db.sales := rfl

@[simp] theorem update_wa_outbox :
    (update_workflow_state db o s).wa_outbox = db.wa_outbox := rfl

@[simp] theorem update_recs :
    (update_workflow_state db o s).size_recommendations
      = db.size_recommendations := rfl

@[simp] theorem update_clock :
    (update_workflow_state db o s).clock = db.clock := rfl

@[simp] theorem update_workflows :
    (update_workflow_state db o s).workflows
      = setStateList o s db.workflows := rfl

end UpsertUpdate

section SendLemmas

variable (vendor : Vendor) (oracle : Nat → Bool) (toPhone : String)
  (tpl : Option String) (dry : Bool) (oid : Option String) (w : World)

theorem send_message_fst_db :
    ∃ st, ((send_message vendor oracle toPhone tpl dry oid w).1).db
        = insertOutbox w.db ⟨oid, toPhone, tpl, st⟩ ∧
      (dry = true → st = WAStatus.DRY_RUN) := by
  unfold send_message
  by_cases hd : dry
  · exact ⟨WAStatus.DRY_RUN, by simp [hd], fun _ => rfl⟩
  · cases vendor with
    | twilio =>
      exact ⟨if oracle w.netCalls then WAStatus.SENT else WAStatus.ERROR,
        by simp [hd], by simp [hd]⟩
    | d360 =>
      exact ⟨if oracle w.netCalls then WAStatus.SENT else WAStatus.ERROR,
        by simp [hd], by simp [hd]⟩
    | other => exact ⟨WAStatus.ERROR, by simp [hd], by simp [hd]⟩

theorem send_message_dry_counts (hd : dry = true) :
    ((send_message vendor oracle toPhone tpl dry oid w).1).netCalls
        = w.netCalls ∧
      ((send_message vendor oracle toPhone tpl dry oid w).1).artifacts
        = w.artifacts + 1 := by
  simp [send_message, hd]

end SendLemmas

section QueryCongr

variable (db db' : Store) (o p t : String)

theorem get_customer_phone_congr (h : db'.customers = db.customers) :
    get_customer_phone db' o = get_customer_phone db o := by
  unfold get_customer_phone
  rw [h]

theorem get_sku_key_congr (h : db'.sales = db.sales) :
    get_sku_key db' o = get_sku_key db o := by
  unfold get_sku_key
  rw [h]

theorem find_latest_inbox_congr (h : db'.wa_inbox = db.wa_inbox) :
    find_latest_inbox_with_measurements db' p
      = find_latest_inbox_with_measurements db p := by
  unfold find_latest_inbox_with_measurements inboxDesc
  rw [h]

theorem find_latest_confirmation_congr (h : db'.wa_inbox = db.wa_inbox) :
    find_latest_confirmation db' p = find_latest_confirmation db p := by
  unfold find_latest_confirmation inboxDesc
  rw [h]

theorem measOf_ro (h : ReadOnlyEq db db') : measOf db' o = measOf db o := by
  unfold measOf
  rw [get_customer_phone_congr db db' o h.1]
  cases get_customer_phone db o with
  | none => rfl
  | some p => exact find_latest_inbox_congr db db' p h.2.1

theorem confOf_ro (h : ReadOnlyEq db db') : confOf db' o = confOf db o := by
  unfold confOf
  rw [get_customer_phone_congr db db' o h.1]
  cases get_customer_phone db o with
  | none => rfl
  | some p => exact find_latest_confirmation_congr db db' p h.2.1

theorem wa_outbox_sent_congr (h : db'.wa_outbox = db.wa_outbox) :
    wa_outbox_sent db' o t = wa_outbox_sent db o t := by
  unfold wa_outbox_sent
  rw [h]

theorem wa_outbox_sent_mono (E : List OutboxRow)
    (hob : db'.wa_outbox = db.wa_outbox ++ E)
    (h : wa_outbox_sent db o t = true) : wa_outbox_sent db' o t = true := by
  unfold wa_outbox_sent at *
  rw [hob, List.any_append, h]
  rfl

theorem recsOf_congr (h : db'.size_recommendations = db.size_recommendations) :
    recsOf db' o = recsOf db o := by
  unfold recsOf
  rw [h]

end QueryCongr

theorem ReadOnlyEq.refl (db : Store) : ReadOnlyEq db db := ⟨rfl, rfl, rfl⟩

theorem ReadOnlyEq.trans' {db1 db2 db3 : Store} (h1 : ReadOnlyEq db1 db2)
    (h2 : ReadOnlyEq db2 db3) : ReadOnlyEq db1 db3 :=
  ⟨h2.1.trans h1.1, h2.2.1.trans h1.2.1, h2.2.2.trans h1.2.2⟩

section RowStateLemmas

variable (ws : List WorkflowRow) (o o' st : String)

theorem map_orderId_setStateList :
    (setStateList o st ws).map WorkflowRow.order_id
      = ws.map WorkflowRow.order_id := by
  unfold setStateList
  rw [List.map_map]
  apply List.map_congr_left
  intro r _
  show (if r.order_id == o then ({ r with state := st } : WorkflowRow)
    else r).order_id = r.order_id
  split <;> rfl

theorem rowState_setStateList_self :
    rowState (setStateList o st ws) o = (rowState ws o).map (fun _ => st) := by
  induction ws with
  | nil => rfl
  | cons r rs ih =>
    by_cases h : r.order_id = o
    · have hbt : (r.order_id == o) = true := by simp [h]
      simp [setStateList, rowState, List.find?_cons, hbt, h]
    · have hbf : (r.order_id == o) = false := by simp [h]
      simp only [setStateList, rowState, List.map_cons, List.find?_cons,
        hbf, Bool.false_eq_true, if_false] at ih ⊢
      exact ih

theorem rowState_setStateList_ne (h : o' ≠ o) :
    rowState (setStateList o st ws) o' = rowState ws o' := by
  induction ws with
  | nil => rfl
  | cons r rs ih =>
    by_cases hr : r.order_id = o
    · have hbt : (r.order_id == o) = true := by simp [hr]
      have hbf' : (r.order_id == o') = false := by simp [hr, Ne.symm h]
      simp only [setStateList, rowState, List.map_cons, List.find?_cons,
        hbt, if_true] at ih ⊢
      simp only [show (({ r with state := st } : WorkflowRow).order_id == o')
        = false from hbf', hbf']
      exact ih
    · have hbf : (r.order_id == o) = false := by simp [hr]
      by_cases hr' : r.order_id = o'
      · have hbt' : (r.order_id == o') = true := by simp [hr']
        simp [setStateList, rowState, List.find?_cons, hbf, hbt', hr]
      · have hbf' : (r.order_id == o') = false := by simp [hr']
        simp only [setStateList, rowState, List.map_cons, List.find?_cons,
          hbf, Bool.false_eq_true, if_false, hbf'] at ih ⊢
        exact ih

end RowStateLemmas

/-- Two workflow tables with the same id sequence (without duplicates) and
the same per-order states are equal. -/
theorem workflows_ext (ws1 ws2 : List WorkflowRow)
    (hids : ws1.map WorkflowRow.order_id = ws2.map WorkflowRow.order_id)
    (hnd : (ws1.map WorkflowRow.order_id).Nodup)
    (hst : ∀ o, rowState ws1 o = rowState ws2 o) : ws1 = ws2 := by
  induction ws1 generalizing ws2 with
  | nil =>
    cases ws2 with
    | nil => rfl
    | cons r2 t2 => simp at hids
  | cons r1 t1 ih =>
    cases ws2 with
    | nil => simp at hids
    | cons r2 t2 =>
      simp only [List.map_cons, List.cons.injEq] at hids
      have hid : r1.order_id = r2.order_id := hids.1
      have hs : r1.state = r2.state := by
        have hs0 := hst r1.order_id
        simp [rowState, List.find?_cons, hid.symm] at hs0
        exact hs0
      have hr : r1 = r2 := by
        cases r1
        cases r2
        simp_all
      subst hr
      simp only [List.map_cons, List.nodup_cons] at hnd
      refine congrArg _ (ih t2 hids.2 hnd.2 fun o => ?_)
      by_cases ho : o = r1.order_id
      · subst ho
        have h1 : List.find? (fun r => r.order_id == r1.order_id) t1 = none :=
          List.find?_eq_none.2 fun r hr hbeq =>
            absurd ((by simpa using hbeq : r.order_id = r1.order_id) ▸
              List.mem_map_of_mem WorkflowRow.order_id hr)
              (by simpa using hnd.1)
        have h2 : List.find? (fun r => r.order_id == r1.order_id) t2 = none := by
          refine List.find?_eq_none.2 fun r hr hbeq => ?_
          have hro : r.order_id = r1.order_id := by simpa using hbeq
          have hmem : r1.order_id ∈ t2.map WorkflowRow.order_id :=
            hro ▸ List.mem_map_of_mem WorkflowRow.order_id hr
          rw [← hids.2] at hmem
          exact absurd hmem (by simpa using hnd.1)
        unfold rowState
        rw [h1, h2]
      · have hne : r1.order_id ≠ o := fun hh => ho hh.symm
        have hs0 := hst o
        simp only [rowState, List.find?_cons] at hs0
        simp only [show (r1.order_id == o) = false by simp [hne]] at hs0
        exact hs0

/-! ### Counting lemmas for `wa_outbox` -/

theorem obCount_congr (db db' : Store) (h : db'.wa_outbox = db.wa_outbox)
    (o t : String) : obCount db' o t = obCount db o t := by
  unfold obCount
  rw [h]

theorem wa_outbox_sent_false_iff (db : Store) (o t : String) :
    wa_outbox_sent db o t = false ↔ obCount db o t = 0 := by
  unfold wa_outbox_sent obCount
  rw [List.length_eq_zero]
  rw [List.filter_eq_nil_iff]
  rw [List.any_eq_false]

theorem obCount_append_one (db db' : Store) (row : OutboxRow)
    (hob : db'.wa_outbox = db.wa_outbox ++ [row]) (o t : String) :
    obCount db' o t = obCount db o t +
      (if row.order_id == some o && row.template == some t then 1 else 0) := by
  unfold obCount
  rw [hob, List.filter_append, List.length_append]
  congr 1
  by_cases h : (row.order_id == some o && row.template == some t) = true
  · simp [List.filter, h]
  · simp only [Bool.not_eq_true] at h
    simp [List.filter, h]

theorem wa_outbox_sent_append_self (db db' : Store) (row : OutboxRow)
    (o t : String) (hob : db'.wa_outbox = db.wa_outbox ++ [row])
    (hrow : row.order_id = some o) (htpl : row.template = some t) :
    wa_outbox_sent db' o t = true := by
  unfold wa_outbox_sent
  rw [hob, List.any_append]
  simp [hrow, htpl]

/-! ### Recommendation-row lemmas -/

theorem recsOf_append (db db' : Store) (E : List RecRow) (o : String)
    (h : db'.size_recommendations = db.size_recommendations ++ E)
    (hE : ∀ r ∈ E, r.order_id ≠ o) : recsOf db' o = recsOf db o := by
  unfold recsOf
  rw [h, List.filter_append]
  have hE0 : E.filter (fun r => r.order_id == o) = [] :=
    List.filter_eq_nil_iff.2 fun r hr => by simp [hE r hr]
  rw [hE0, List.append_nil]

theorem latestReco_of_recsOf_empty (db : Store) (o : String)
    (h : recsOf db o = []) : latestReco db o = none := by
  unfold latestReco
  unfold recsOf at h
  rw [h]
  rfl

/-! ### Lemmas about the shared guarded-send block -/

section GuardedSendLemmas

variable (v : Vendor) (orc : Nat → Bool) (d : Bool) (w : World)
  (o t ph : String)

theorem guardedSend_silent (h : wa_outbox_sent w.db o t = true) :
    guardedSend v orc d w o t ph = w := by
  unfold guardedSend
  rw [if_pos h]

theorem guardedSend_ro : ReadOnlyEq w.db (guardedSend v orc d w o t ph).db := by
  unfold guardedSend
  by_cases h : wa_outbox_sent w.db o t
  · rw [if_pos h]
    exact ReadOnlyEq.refl _
  · rw [if_neg h]
    obtain ⟨st, hdb, _⟩ := send_message_fst_db v orc ph (some t) d (some o) w
    rw [hdb]
    exact ⟨rfl, rfl, rfl⟩

theorem guardedSend_workflows :
    (guardedSend v orc d w o t ph).db.workflows = w.db.workflows := by
  unfold guardedSend
  by_cases h : wa_outbox_sent w.db o t
  · rw [if_pos h]
  · rw [if_neg h]
    obtain ⟨st, hdb, _⟩ := send_message_fst_db v orc ph (some t) d (some o) w
    rw [hdb]
    rfl

theorem guardedSend_recs :
    (guardedSend v orc d w o t ph).db.size_recommendations
      = w.db.size_recommendations := by
  unfold guardedSend
  by_cases h : wa_outbox_sent w.db o t
  · rw [if_pos h]
  · rw [if_neg h]
    obtain ⟨st, hdb, _⟩ := send_message_fst_db v orc ph (some t) d (some o) w
    rw [hdb]
    rfl

theorem guardedSend_outbox :
    (guardedSend v orc d w o t ph).db.wa_outbox = w.db.wa_outbox ∨
      (wa_outbox_sent w.db o t = false ∧ ∃ row : OutboxRow,
        row.order_id = some o ∧ row.template = some t ∧
          (d = true → row.status = WAStatus.DRY_RUN) ∧
          (guardedSend v orc d w o t ph).db.wa_outbox
            = w.db.wa_outbox ++ [row]) := by
  unfold guardedSend
  by_cases h : wa_outbox_sent w.db o t
  · rw [if_pos h]
    exact Or.inl rfl
  · rw [if_neg h]
    obtain ⟨st, hdb, hdry⟩ := send_message_fst_db v orc ph (some t) d (some o) w
    exact Or.inr ⟨by simpa using h, ⟨some o, ph, some t, st⟩, rfl, rfl, hdry,
      by rw [hdb]; rfl⟩

theorem guardedSend_ensures :
    wa_outbox_sent (guardedSend v orc d w o t ph).db o t = true := by
  unfold guardedSend
  by_cases h : wa_outbox_sent w.db o t
  · rw [if_pos h]
    exact h
  · rw [if_neg h]
    obtain ⟨st, hdb, _⟩ := send_message_fst_db v orc ph (some t) d (some o) w
    exact wa_outbox_sent_append_self w.db _ ⟨some o, ph, some t, st⟩ o t
      (by rw [hdb]; rfl) rfl rfl

theorem guardedSend_dry (hd : d = true) :
    ∃ E : List OutboxRow,
      (guardedSend v orc d w o t ph).db.wa_outbox = w.db.wa_outbox ++ E ∧
      (∀ r ∈ E, r.status = WAStatus.DRY_RUN) ∧
      (guardedSend v orc d w o t ph).netCalls = w.netCalls ∧
      (guardedSend v orc d w o t ph).artifacts = w.artifacts + E.length := by
  unfold guardedSend
  by_cases h : wa_outbox_sent w.db o t
  · rw [if_pos h]
    exact ⟨[], by simp, by simp, rfl, by simp⟩
  · rw [if_neg h]
    obtain ⟨st, hdb, hdry⟩ := send_message_fst_db v orc ph (some t) d (some o) w
    obtain ⟨hnet, hart⟩ := send_message_dry_counts v orc ph (some t) d (some o) w hd
    refine ⟨[⟨some o, ph, some t, st⟩], by rw [hdb]; rfl, ?_, hnet, hart⟩
    intro r hr
    simp at hr
    rw [hr]
    exact hdry hd

end GuardedSendLemmas

/-! ### Step lemmas: the first scan body -/

section Step1Lemmas

variable (v : Vendor) (orc : Nat → Bool) (d : Bool) (w : World) (o : String)

theorem step1_phone_none (h : get_customer_phone w.db o = none) :
    step1 v orc d w o = w := by
  unfold step1
  rw [h]

theorem step1_ro : ReadOnlyEq w.db (step1 v orc d w o).db := by
  unfold step1
  cases hp : get_customer_phone w.db o with
  | none => exact ReadOnlyEq.refl _
  | some phone =>
    have h := guardedSend_ro v orc d w o "size_check" phone
    exact ⟨h.1, h.2.1, h.2.2⟩

theorem step1_recs :
    (step1 v orc d w o).db.size_recommendations
      = w.db.size_recommendations := by
  unfold step1
  cases hp : get_customer_phone w.db o with
  | none => rfl
  | some phone => exact guardedSend_recs v orc d w o "size_check" phone

theorem step1_workflows :
    (step1 v orc d w o).db.workflows =
      if (get_customer_phone w.db o).isSome
      then setStateList o STATE_WAITING_SIZE_INFO w.db.workflows
      else w.db.workflows := by
  unfold step1
  cases hp : get_customer_phone w.db o with
  | none => rw [if_neg (by simp)]
  | some phone =>
    simp only []
    rw [if_pos (by simp)]
    show setStateList o STATE_WAITING_SIZE_INFO
        (guardedSend v orc d w o "size_check" phone).db.workflows
      = setStateList o STATE_WAITING_SIZE_INFO w.db.workflows
    rw [guardedSend_workflows]

theorem step1_outbox :
    (step1 v orc d w o).db.wa_outbox = w.db.wa_outbox ∨
      (wa_outbox_sent w.db o "size_check" = false ∧ ∃ row : OutboxRow,
        row.order_id = some o ∧ row.template = some "size_check" ∧
          (d = true → row.status = WAStatus.DRY_RUN) ∧
          (step1 v orc d w o).db.wa_outbox = w.db.wa_outbox ++ [row]) := by
  unfold step1
  cases hp : get_customer_phone w.db o with
  | none => exact Or.inl rfl
  | some phone => exact guardedSend_outbox v orc d w o "size_check" phone

theorem step1_dry (hd : d = true) :
    ∃ E : List OutboxRow,
      (step1 v orc d w o).db.wa_outbox = w.db.wa_outbox ++ E ∧
      (∀ r ∈ E, r.status = WAStatus.DRY_RUN) ∧
      (step1 v orc d w o).netCalls = w.netCalls ∧
      (step1 v orc d w o).artifacts = w.artifacts + E.length := by
  unfold step1
  cases hp : get_customer_phone w.db o with
  | none => exact ⟨[], by simp, by simp, rfl, by simp⟩
  | some phone => exact guardedSend_dry v orc d w o "size_check" phone hd

end Step1Lemmas

/-! ### Step lemmas: the second scan body -/

section Step2Lemmas

variable (v : Vendor) (orc : Nat → Bool) (d : Bool) (w : World) (o : String)

theorem measOf_phone (p : String) (hp : get_customer_phone w.db o = some p) :
    measOf w.db o = find_latest_inbox_with_measurements w.db p := by
  unfold measOf
  rw [hp]

theorem measOf_none_of_phone_none (hp : get_customer_phone w.db o = none) :
    measOf w.db o = none := by
  unfold measOf
  rw [hp]

theorem confOf_phone (p : String) (hp : get_customer_phone w.db o = some p) :
    confOf w.db o = find_latest_confirmation w.db p := by
  unfold confOf
  rw [hp]

theorem confOf_none_of_phone_none (hp : get_customer_phone w.db o = none) :
    confOf w.db o = none := by
  unfold confOf
  rw [hp]

theorem step2_meas_none (h : measOf w.db o = none) :
    step2 v orc d w o = w := by
  unfold step2
  cases hp : get_customer_phone w.db o with
  | none => rfl
  | some phone =>
    rw [measOf_phone w o phone hp] at h
    simp only []
    rw [h]

theorem step2_ro : ReadOnlyEq w.db (step2 v orc d w o).db := by
  unfold step2
  cases hp : get_customer_phone w.db o with
  | none => exact ReadOnlyEq.refl _
  | some phone =>
    simp only []
    cases hm : find_latest_inbox_with_measurements w.db phone with
    | none => exact ReadOnlyEq.refl _
    | some hw =>
      obtain ⟨hgt, wgt⟩ := hw
      simp only []
      have h := guardedSend_ro v orc d
        { w with db := (upsert_size_reco w.db o
            (compute_recommendation hgt wgt (get_sku_key w.db o)).1
            (compute_recommendation hgt wgt (get_sku_key w.db o)).2
            hgt wgt none) } o "size_confirm" phone
      exact ⟨h.1, h.2.1, h.2.2⟩

theorem step2_workflows :
    (step2 v orc d w o).db.workflows =
      if (measOf w.db o).isSome
      then setStateList o STATE_WAITING_CONFIRM w.db.workflows
      else w.db.workflows := by
  unfold step2
  cases hp : get_customer_phone w.db o with
  | none =>
    rw [measOf_none_of_phone_none w o hp]
    rfl
  | some phone =>
    rw [measOf_phone w o phone hp]
    simp only []
    cases hm : find_latest_inbox_with_measurements w.db phone with
    | none => rfl
    | some hw =>
      obtain ⟨hgt, wgt⟩ := hw
      simp only []
      rw [if_pos (by simp)]
      show setStateList o STATE_WAITING_CONFIRM
          (guardedSend v orc d
            { w with db := (upsert_size_reco w.db o
                (compute_recommendation hgt wgt (get_sku_key w.db o)).1
                (compute_recommendation hgt wgt (get_sku_key w.db o)).2
                hgt wgt none) } o "size_confirm" phone).db.workflows
        = setStateList o STATE_WAITING_CONFIRM w.db.workflows
      rw [guardedSend_workflows]
      rfl

theorem step2_recs :
    ∃ E : List RecRow,
      (step2 v orc d w o).db.size_recommendations
        = w.db.size_recommendations ++ E ∧
      ∀ r ∈ E, r.order_id = o := by
  unfold step2
  cases hp : get_customer_phone w.db o with
  | none => exact ⟨[], by simp, by simp⟩
  | some phone =>
    simp only []
    cases hm : find_latest_inbox_with_measurements w.db phone with
    | none => exact ⟨[], by simp, by simp⟩
    | some hw =>
      obtain ⟨hgt, wgt⟩ := hw
      simp only []
      refine ⟨[⟨o, (compute_recommendation hgt wgt (get_sku_key w.db o)).1,
        (compute_recommendation hgt wgt (get_sku_key w.db o)).2,
        hgt, wgt, none, w.db.clock⟩], ?_, ?_⟩
      · exact guardedSend_recs v orc d _ o "size_confirm" phone
      · intro r hr
        simp at hr
        rw [hr]

theorem step2_outbox :
    (step2 v orc d w o).db.wa_outbox = w.db.wa_outbox ∨
      (wa_outbox_sent w.db o "size_confirm" = false ∧ ∃ row : OutboxRow,
        row.order_id = some o ∧ row.template = some "size_confirm" ∧
          (d = true → row.status = WAStatus.DRY_RUN) ∧
          (step2 v orc d w o).db.wa_outbox = w.db.wa_outbox ++ [row]) := by
  unfold step2
  cases hp : get_customer_phone w.db o with
  | none => exact Or.inl rfl
  | some phone =>
    simp only []
    cases hm : find_latest_inbox_with_measurements w.db phone with
    | none => exact Or.inl rfl
    | some hw =>
      obtain ⟨hgt, wgt⟩ := hw
      simp only []
      exact guardedSend_outbox v orc d _ o "size_confirm" phone

theorem step2_dry (hd : d = true) :
    ∃ E : List OutboxRow,
      (step2 v orc d w o).db.wa_outbox = w.db.wa_outbox ++ E ∧
      (∀ r ∈ E, r.status = WAStatus.DRY_RUN) ∧
      (step2 v orc d w o).netCalls = w.netCalls ∧
      (step2 v orc d w o).artifacts = w.artifacts + E.length := by
  unfold step2
  cases hp : get_customer_phone w.db o with
  | none => exact ⟨[], by simp, by simp, rfl, by simp⟩
  | some phone =>
    simp only []
    cases hm : find_latest_inbox_with_measurements w.db phone with
    | none => exact ⟨[], by simp, by simp, rfl, by simp⟩
    | some hw =>
      obtain ⟨hgt, wgt⟩ := hw
      simp only []
      exact guardedSend_dry v orc d _ o "size_confirm" phone hd

theorem step2_ensures (h : (measOf w.db o).isSome = true) :
    wa_outbox_sent (step2 v orc d w o).db o "size_confirm" = true := by
  unfold step2
  cases hp : get_customer_phone w.db o with
  | none =>
    rw [measOf_none_of_phone_none w o hp] at h
    simp at h
  | some phone =>
    rw [measOf_phone w o phone hp] at h
    simp only []
    cases hm : find_latest_inbox_with_measurements w.db phone with
    | none =>
      rw [hm] at h
      simp at h
    | some hw =>
      obtain ⟨hgt, wgt⟩ := hw
      simp only []
      exact guardedSend_ensures v orc d _ o "size_confirm" phone

theorem step2_outbox_silent
    (h : (measOf w.db o).isSome = true →
      wa_outbox_sent w.db o "size_confirm" = true) :
    (step2 v orc d w o).db.wa_outbox = w.db.wa_outbox := by
  rcases step2_outbox v orc d w o with hob | ⟨hsent, _, _, _, _, _⟩
  · exact hob
  · by_cases hme : (measOf w.db o).isSome = true
    · rw [h hme] at hsent
      cases hsent
    · rw [step2_meas_none v orc d w o (by
        cases hmo : measOf w.db o with
        | none => rfl
        | some x => rw [hmo] at hme; simp at hme)]
end Step2Lemmas

/-! ### Step lemmas: the third scan body -/

section Step3Lemmas

variable (v : Vendor) (orc : Nat → Bool) (d : Bool) (w : World) (o : String)

theorem step3_conf_none (h : confOf w.db o = none) :
    step3 v orc d w o = w := by
  unfold step3
  cases hp : get_customer_phone w.db o with
  | none => rfl
  | some phone =>
    rw [confOf_phone w o phone hp] at h
    simp only []
    rw [h]

theorem step3_ro : ReadOnlyEq w.db (step3 v orc d w o).db := by
  unfold step3
  cases hp : get_customer_phone w.db o with
  | none => exact ReadOnlyEq.refl _
  | some phone =>
    simp only []
    cases hc : find_latest_confirmation w.db phone with
    | none => exact ReadOnlyEq.refl _
    | some conf =>
      simp only []
      by_cases hy : conf = "yes"
      · rw [if_pos hy]
        cases hr : latestReco w.db o with
        | some rr => exact ⟨rfl, rfl, rfl⟩
        | none => exact ⟨rfl, rfl, rfl⟩
      · rw [if_neg hy]
        by_cases hn : conf = "no"
        · rw [if_pos hn]
          have h := guardedSend_ro v orc d w o "size_check_again" phone
          exact ⟨h.1, h.2.1, h.2.2⟩
        · rw [if_neg hn]
          exact ReadOnlyEq.refl _

theorem step3_workflows :
    (step3 v orc d w o).db.workflows =
      if confOf w.db o = some "yes"
      then setStateList o STATE_CONFIRMED w.db.workflows
      else if confOf w.db o = some "no"
      then setStateList o STATE_WAITING_SIZE_INFO w.db.workflows
      else w.db.workflows := by
  unfold step3
  cases hp : get_customer_phone w.db o with
  | none =>
    rw [confOf_none_of_phone_none w o hp]
    rfl
  | some phone =>
    rw [confOf_phone w o phone hp]
    simp only []
    cases hc : find_latest_confirmation w.db phone with
    | none => rfl
    | some conf =>
      simp only []
      by_cases hy : conf = "yes"
      · subst hy
        rw [if_pos rfl, if_pos rfl]
        cases hr : latestReco w.db o with
        | some rr => rfl
        | none => rfl
      · have hy' : ¬ (some conf = some "yes") := fun hx =>
          hy (Option.some.inj hx)
        rw [if_neg hy, if_neg hy']
        by_cases hn : conf = "no"
        · subst hn
          rw [if_pos rfl, if_pos rfl]
          show setStateList o STATE_WAITING_SIZE_INFO
              (guardedSend v orc d w o "size_check_again" phone).db.workflows
            = setStateList o STATE_WAITING_SIZE_INFO w.db.workflows
          rw [guardedSend_workflows]
        · have hn' : ¬ (some conf = some "no") := fun hx =>
            hn (Option.some.inj hx)
          rw [if_neg hn, if_neg hn']

theorem step3_outbox :
    (step3 v orc d w o).db.wa_outbox = w.db.wa_outbox ∨
      (wa_outbox_sent w.db o "size_check_again" = false ∧ ∃ row : OutboxRow,
        row.order_id = some o ∧ row.template = some "size_check_again" ∧
          (d = true → row.status = WAStatus.DRY_RUN) ∧
          (step3 v orc d w o).db.wa_outbox = w.db.wa_outbox ++ [row]) := by
  unfold step3
  cases hp : get_customer_phone w.db o with
  | none => exact Or.inl rfl
  | some phone =>
    simp only []
    cases hc : find_latest_confirmation w.db phone with
    | none => exact Or.inl rfl
    | some conf =>
      simp only []
      by_cases hy : conf = "yes"
      · rw [if_pos hy]
        left
        cases hr : latestReco w.db o with
        | some rr => rfl
        | none => rfl
      · rw [if_neg hy]
        by_cases hn : conf = "no"
        · rw [if_pos hn]
          exact guardedSend_outbox v orc d w o "size_check_again" phone
        · rw [if_neg hn]
          exact Or.inl rfl

theorem step3_recs :
    ∃ E : List RecRow,
      (step3 v orc d w o).db.size_recommendations
        = w.db.size_recommendations ++ E ∧
      ∀ r ∈ E, r.order_id = o := by
  unfold step3
  cases hp : get_customer_phone w.db o with
  | none => exact ⟨[], by simp, by simp⟩
  | some phone =>
    simp only []
    cases hc : find_latest_confirmation w.db phone with
    | none => exact ⟨[], by simp, by simp⟩
    | some conf =>
      simp only []
      by_cases hy : conf = "yes"
      · rw [if_pos hy]
        cases hr : latestReco w.db o with
        | some rr =>
          refine ⟨[⟨o, rr.recommended_size, 1, rr.height, rr.weight,
            some rr.recommended_size, w.db.clock⟩], rfl, ?_⟩
          intro r hrr
          simp at hrr
          rw [hrr]
        | none => exact ⟨[], by simp, by simp⟩
      · rw [if_neg hy]
        by_cases hn : conf = "no"
        · rw [if_pos hn]
          refine ⟨[], ?_, by simp⟩
          rw [List.append_nil]
          exact guardedSend_recs v orc d w o "size_check_again" phone
        · rw [if_neg hn]
          exact ⟨[], by simp, by simp⟩

theorem step3_dry (hd : d = true) :
    ∃ E : List OutboxRow,
      (step3 v orc d w o).db.wa_outbox = w.db.wa_outbox ++ E ∧
      (∀ r ∈ E, r.status = WAStatus.DRY_RUN) ∧
      (step3 v orc d w o).netCalls = w.netCalls ∧
      (step3 v orc d w o).artifacts = w.artifacts + E.length := by
  unfold step3
  cases hp : get_customer_phone w.db o with
  | none => exact ⟨[], by simp, by simp, rfl, by simp⟩
  | some phone =>
    simp only []
    cases hc : find_latest_confirmation w.db phone with
    | none => exact ⟨[], by simp, by simp, rfl, by simp⟩
    | some conf =>
      simp only []
      by_cases hy : conf = "yes"
      · rw [if_pos hy]
        cases hr : latestReco w.db o with
        | some rr => exact ⟨[], by simp, by simp, rfl, by simp⟩
        | none => exact ⟨[], by simp, by simp, rfl, by simp⟩
      · rw [if_neg hy]
        by_cases hn : conf = "no"
        · rw [if_pos hn]
          exact guardedSend_dry v orc d w o "size_check_again" phone hd
        · rw [if_neg hn]
          exact ⟨[], by simp, by simp, rfl, by simp⟩

theorem step3_ensures (h : confOf w.db o = some "no") :
    wa_outbox_sent (step3 v orc d w o).db o "size_check_again" = true := by
  unfold step3
  cases hp : get_customer_phone w.db o with
  | none => rw [confOf_none_of_phone_none w o hp] at h; cases h
  | some phone =>
    rw [confOf_phone w o phone hp] at h
    simp only []
    rw [h]
    simp only []
    rw [if_neg (by decide), if_pos trivial]
    exact guardedSend_ensures v orc d w o "size_check_again" phone

theorem step3_outbox_silent
    (h : confOf w.db o = some "no" →
      wa_outbox_sent w.db o "size_check_again" = true) :
    (step3 v orc d w o).db.wa_outbox = w.db.wa_outbox := by
  rcases step3_outbox v orc d w o with hob | ⟨hsent, _, _, _, _, _⟩
  · exact hob
  · by_cases hcn : confOf w.db o = some "no"
    · rw [h hcn] at hsent
      cases hsent
    · unfold step3
      cases hp : get_customer_phone w.db o with
      | none => rfl
      | some phone =>
        simp only []
        cases hc : find_latest_confirmation w.db phone with
        | none => rfl
        | some conf =>
          simp only []
          by_cases hy : conf = "yes"
          · rw [if_pos hy]
            cases hr : latestReco w.db o with
            | some rr => rfl
            | none => rfl
          · rw [if_neg hy]
            have hn : ¬ conf = "no" := by
              intro hx
              apply hcn
              rw [confOf_phone w o phone hp, hc, hx]
            rw [if_neg hn]

theorem step3_recsOf_empty (o' : String) (h : recsOf w.db o' = []) :
    recsOf (step3 v orc d w o).db o' = [] := by
  by_cases ho : o = o'
  · subst ho
    unfold step3
    cases hp : get_customer_phone w.db o with
    | none => exact h
    | some phone =>
      simp only []
      cases hc : find_latest_confirmation w.db phone with
      | none => exact h
      | some conf =>
        simp only []
        by_cases hy : conf = "yes"
        · rw [if_pos hy]
          rw [latestReco_of_recsOf_empty w.db o h]
          exact h
        · rw [if_neg hy]
          by_cases hn : conf = "no"
          · rw [if_pos hn]
            show recsOf (update_workflow_state
              (guardedSend v orc d w o "size_check_again" phone).db o
                STATE_WAITING_SIZE_INFO) o = []
            rw [show recsOf (update_workflow_state
                (guardedSend v orc d w o "size_check_again" phone).db o
                  STATE_WAITING_SIZE_INFO) o
              = recsOf (guardedSend v orc d w o "size_check_again" phone).db o
              from rfl]
            rw [recsOf_congr _ _ o (guardedSend_recs v orc d w o
              "size_check_again" phone)]
            exact h
          · rw [if_neg hn]
            exact h
  · obtain ⟨E, hrecs, hE⟩ := step3_recs v orc d w o
    rw [recsOf_append w.db (step3 v orc d w o).db E o' hrecs
      (fun r hr => (hE r hr) ▸ ho)]
    exact h
end Step3Lemmas

/-! ### Run lemmas: folding a scan body over a snapshot of order ids -/

theorem runOrders_rel (step : World → String → World)
    (P : World → World → Prop) (hrefl : ∀ w, P w w)
    (htrans : ∀ a b c, P a b → P b c → P a c)
    (hstep : ∀ w o, P w (step w o)) :
    ∀ (L : List String) (w : World), P w (runOrders step w L) := by
  intro L
  induction L with
  | nil => intro w; exact hrefl w
  | cons o os ih =>
    intro w
    exact htrans _ _ _ (hstep w o) (ih (step w o))

section RunLemmas

variable (v : Vendor) (orc : Nat → Bool) (d : Bool)

theorem run1_ro (L : List String) (w : World) :
    ReadOnlyEq w.db (runOrders (step1 v orc d) w L).db :=
  runOrders_rel _ (fun a b => ReadOnlyEq a.db b.db)
    (fun w => ReadOnlyEq.refl w.db) (fun _ _ _ => ReadOnlyEq.trans')
    (step1_ro v orc d) L w

theorem run2_ro (L : List String) (w : World) :
    ReadOnlyEq w.db (runOrders (step2 v orc d) w L).db :=
  runOrders_rel _ (fun a b => ReadOnlyEq a.db b.db)
    (fun w => ReadOnlyEq.refl w.db) (fun _ _ _ => ReadOnlyEq.trans')
    (step2_ro v orc d) L w

theorem run3_ro (L : List String) (w : World) :
    ReadOnlyEq w.db (runOrders (step3 v orc d) w L).db :=
  runOrders_rel _ (fun a b => ReadOnlyEq a.db b.db)
    (fun w => ReadOnlyEq.refl w.db) (fun _ _ _ => ReadOnlyEq.trans')
    (step3_ro v orc d) L w

theorem run1_outbox_ext (L : List String) (w : World) :
    ∃ E, (runOrders (step1 v orc d) w L).db.wa_outbox
      = w.db.wa_outbox ++ E := by
  refine runOrders_rel _
    (fun a b => ∃ E, b.db.wa_outbox = a.db.wa_outbox ++ E)
    (fun w => ⟨[], by simp⟩) ?_ ?_ L w
  · rintro a b c ⟨E1, h1⟩ ⟨E2, h2⟩
    exact ⟨E1 ++ E2, by rw [h2, h1, List.append_assoc]⟩
  · intro w o
    rcases step1_outbox v orc d w o with h | ⟨_, row, _, _, _, h⟩
    · exact ⟨[], by simp [h]⟩
    · exact ⟨[row], h⟩

theorem run2_outbox_ext (L : List String) (w : World) :
    ∃ E, (runOrders (step2 v orc d) w L).db.wa_outbox
      = w.db.wa_outbox ++ E := by
  refine runOrders_rel _
    (fun a b => ∃ E, b.db.wa_outbox = a.db.wa_outbox ++ E)
    (fun w => ⟨[], by simp⟩) ?_ ?_ L w
  · rintro a b c ⟨E1, h1⟩ ⟨E2, h2⟩
    exact ⟨E1 ++ E2, by rw [h2, h1, List.append_assoc]⟩
  · intro w o
    rcases step2_outbox v orc d w o with h | ⟨_, row, _, _, _, h⟩
    · exact ⟨[], by simp [h]⟩
    · exact ⟨[row], h⟩

theorem run3_outbox_ext (L : List String) (w : World) :
    ∃ E, (runOrders (step3 v orc d) w L).db.wa_outbox
      = w.db.wa_outbox ++ E := by
  refine runOrders_rel _
    (fun a b => ∃ E, b.db.wa_outbox = a.db.wa_outbox ++ E)
    (fun w => ⟨[], by simp⟩) ?_ ?_ L w
  · rintro a b c ⟨E1, h1⟩ ⟨E2, h2⟩
    exact ⟨E1 ++ E2, by rw [h2, h1, List.append_assoc]⟩
  · intro w o
    rcases step3_outbox v orc d w o with h | ⟨_, row, _, _, _, h⟩
    · exact ⟨[], by simp [h]⟩
    · exact ⟨[row], h⟩

/-- The per-pair outbox count either stays or goes from 0 to 1, for a step
that appends at most one guarded row. -/
theorem obCount_guarded (db db' : Store) (o' t' : String) (row : OutboxRow)
    (hsent : wa_outbox_sent db o' t' = false)
    (hrow : row.order_id = some o') (htpl : row.template = some t')
    (hob : db'.wa_outbox = db.wa_outbox ++ [row]) (o t : String) :
    obCount db' o t = obCount db o t ∨
      (obCount db o t = 0 ∧ obCount db' o t = 1) := by
  rw [obCount_append_one db db' row hob o t]
  by_cases hmatch : (row.order_id == some o && row.template == some t) = true
  · right
    have ho : o = o' := by
      have := hmatch
      simp [hrow, htpl] at this
      exact this.1.symm
    have ht : t = t' := by
      have := hmatch
      simp [hrow, htpl] at this
      exact this.2.symm
    subst ho
    subst ht
    have h0 : obCount db o t = 0 := (wa_outbox_sent_false_iff db o t).1 hsent
    rw [h0, hmatch]
    simp
  · left
    simp only [Bool.not_eq_true] at hmatch
    rw [hmatch]
    simp

theorem step1_obCount (w : World) (o : String) (o' t' : String) :
    obCount (step1 v orc d w o).db o' t' = obCount w.db o' t' ∨
      (obCount w.db o' t' = 0 ∧ obCount (step1 v orc d w o).db o' t' = 1) := by
  rcases step1_outbox v orc d w o with h | ⟨hsent, row, hrow, htpl, _, h⟩
  · exact Or.inl (obCount_congr _ _ h o' t')
  · exact obCount_guarded w.db _ o "size_check" row hsent hrow htpl h o' t'

theorem step2_obCount (w : World) (o : String) (o' t' : String) :
    obCount (step2 v orc d w o).db o' t' = obCount w.db o' t' ∨
      (obCount w.db o' t' = 0 ∧ obCount (step2 v orc d w o).db o' t' = 1) := by
  rcases step2_outbox v orc d w o with h | ⟨hsent, row, hrow, htpl, _, h⟩
  · exact Or.inl (obCount_congr _ _ h o' t')
  · exact obCount_guarded w.db _ o "size_confirm" row hsent hrow htpl h o' t'

theorem step3_obCount (w : World) (o : String) (o' t' : String) :
    obCount (step3 v orc d w o).db o' t' = obCount w.db o' t' ∨
      (obCount w.db o' t' = 0 ∧ obCount (step3 v orc d w o).db o' t' = 1) := by
  rcases step3_outbox v orc d w o with h | ⟨hsent, row, hrow, htpl, _, h⟩
  · exact Or.inl (obCount_congr _ _ h o' t')
  · exact obCount_guarded w.db _ o "size_check_again" row hsent hrow htpl h o' t'

theorem runOrders_obCount (step : World → String → World)
    (hstep : ∀ (w : World) (o o' t' : String),
      obCount (step w o).db o' t' = obCount w.db o' t' ∨
        (obCount w.db o' t' = 0 ∧ obCount (step w o).db o' t' = 1))
    (L : List String) (w : World) (o' t' : String) :
    obCount (runOrders step w L).db o' t' = obCount w.db o' t' ∨
      (obCount w.db o' t' = 0 ∧
        obCount (runOrders step w L).db o' t' = 1) := by
  refine runOrders_rel step
    (fun a b => ∀ o' t', obCount b.db o' t' = obCount a.db o' t' ∨
      (obCount a.db o' t' = 0 ∧ obCount b.db o' t' = 1))
    (fun w o' t' => Or.inl rfl) ?_ (fun w o o' t' => hstep w o o' t') L w o' t'
  rintro a b c h1 h2 o' t'
  rcases h2 o' t' with h2 | ⟨h20, h21⟩
  · rw [h2]
    exact h1 o' t'
  · rcases h1 o' t' with h1 | ⟨h10, h11⟩
    · rw [h1] at h20
      exact Or.inr ⟨h20, h21⟩
    · rw [h11] at h20
      cases h20

theorem run1_silent (L : List String) :
    ∀ w : World, (∀ o ∈ L, get_customer_phone w.db o = none) →
      runOrders (step1 v orc d) w L = w := by
  induction L with
  | nil => intro w _; rfl
  | cons o os ih =>
    intro w h
    show runOrders (step1 v orc d) (step1 v orc d w o) os = w
    rw [step1_phone_none v orc d w o (h o (by simp))]
    exact ih w fun o' ho' => h o' (by simp [ho'])

theorem run2_outbox_silent (L : List String) :
    ∀ w : World,
      (∀ o ∈ L, (measOf w.db o).isSome = true →
        wa_outbox_sent w.db o "size_confirm" = true) →
      (runOrders (step2 v orc d) w L).db.wa_outbox = w.db.wa_outbox := by
  induction L with
  | nil => intro w _; rfl
  | cons o os ih =>
    intro w h
    show (runOrders (step2 v orc d) (step2 v orc d w o) os).db.wa_outbox
      = w.db.wa_outbox
    have hhead : (step2 v orc d w o).db.wa_outbox = w.db.wa_outbox :=
      step2_outbox_silent v orc d w o (h o (by simp))
    rw [ih (step2 v orc d w o) ?_, hhead]
    intro o' ho' hm
    rw [measOf_ro w.db _ o' (step2_ro v orc d w o)] at hm
    rw [wa_outbox_sent_congr w.db _ o' "size_confirm" hhead]
    exact h o' (by simp [ho']) hm

theorem run3_outbox_silent (L : List String) :
    ∀ w : World,
      (∀ o ∈ L, confOf w.db o = some "no" →
        wa_outbox_sent w.db o "size_check_again" = true) →
      (runOrders (step3 v orc d) w L).db.wa_outbox = w.db.wa_outbox := by
  induction L with
  | nil => intro w _; rfl
  | cons o os ih =>
    intro w h
    show (runOrders (step3 v orc d) (step3 v orc d w o) os).db.wa_outbox
      = w.db.wa_outbox
    have hhead : (step3 v orc d w o).db.wa_outbox = w.db.wa_outbox :=
      step3_outbox_silent v orc d w o (h o (by simp))
    rw [ih (step3 v orc d w o) ?_, hhead]
    intro o' ho' hm
    rw [confOf_ro w.db _ o' (step3_ro v orc d w o)] at hm
    rw [wa_outbox_sent_congr w.db _ o' "size_check_again" hhead]
    exact h o' (by simp [ho']) hm

theorem run2_ensures (L : List String) :
    ∀ w : World, ∀ o ∈ L, (measOf w.db o).isSome = true →
      wa_outbox_sent (runOrders (step2 v orc d) w L).db o "size_confirm"
        = true := by
  induction L with
  | nil => intro w o ho; cases ho
  | cons a os ih =>
    intro w o ho hm
    show wa_outbox_sent
      (runOrders (step2 v orc d) (step2 v orc d w a) os).db o "size_confirm"
      = true
    rcases List.mem_cons.1 ho with rfl | ho'
    · have h1 : wa_outbox_sent (step2 v orc d w o).db o "size_confirm"
          = true := step2_ensures v orc d w o hm
      obtain ⟨E, hE⟩ := run2_outbox_ext v orc d os (step2 v orc d w o)
      exact wa_outbox_sent_mono _ _ o "size_confirm" E hE h1
    · refine ih (step2 v orc d w a) o ho' ?_
      rw [measOf_ro w.db _ o (step2_ro v orc d w a)]
      exact hm

theorem run3_ensures (L : List String) :
    ∀ w : World, ∀ o ∈ L, confOf w.db o = some "no" →
      wa_outbox_sent (runOrders (step3 v orc d) w L).db o "size_check_again"
        = true := by
  induction L with
  | nil => intro w o ho; cases ho
  | cons a os ih =>
    intro w o ho hm
    show wa_outbox_sent
      (runOrders (step3 v orc d) (step3 v orc d w a) os).db o
        "size_check_again" = true
    rcases List.mem_cons.1 ho with rfl | ho'
    · have h1 : wa_outbox_sent (step3 v orc d w o).db o "size_check_again"
          = true := step3_ensures v orc d w o hm
      obtain ⟨E, hE⟩ := run3_outbox_ext v orc d os (step3 v orc d w o)
      exact wa_outbox_sent_mono _ _ o "size_check_again" E hE h1
    · refine ih (step3 v orc d w a) o ho' ?_
      rw [confOf_ro w.db _ o (step3_ro v orc d w a)]
      exact hm

theorem run1_recs (L : List String) (w : World) :
    (runOrders (step1 v orc d) w L).db.size_recommendations
      = w.db.size_recommendations :=
  runOrders_rel _
    (fun a b => b.db.size_recommendations = a.db.size_recommendations)
    (fun _ => rfl) (fun _ _ _ h1 h2 => h2.trans h1)
    (step1_recs v orc d) L w

theorem run2_recsOf_ne (L : List String) :
    ∀ (w : World) (o : String), o ∉ L →
      recsOf (runOrders (step2 v orc d) w L).db o = recsOf w.db o := by
  induction L with
  | nil => intro w o _; rfl
  | cons a os ih =>
    intro w o ho
    show recsOf (runOrders (step2 v orc d) (step2 v orc d w a) os).db o
      = recsOf w.db o
    rw [ih (step2 v orc d w a) o (fun hx => ho (by simp [hx]))]
    obtain ⟨E, hE, hid⟩ := step2_recs v orc d w a
    exact recsOf_append w.db _ E o hE fun r hr =>
      (hid r hr) ▸ fun hx => ho (by simp [hx])

theorem run3_recsOf_empty (L : List String) (w : World) (o : String)
    (h : recsOf w.db o = []) :
    recsOf (runOrders (step3 v orc d) w L).db o = [] := by
  refine runOrders_rel _
    (fun a b => ∀ o, recsOf a.db o = [] → recsOf b.db o = [])
    (fun _ _ hh => hh) (fun a b c h1 h2 o hh => h2 o (h1 o hh))
    (fun w o o' hh => step3_recsOf_empty v orc d w o o' hh) L w o h

theorem runOrders_dry (step : World → String → World)
    (hstep : ∀ (w : World) (o : String), ∃ E : List OutboxRow,
      (step w o).db.wa_outbox = w.db.wa_outbox ++ E ∧
      (∀ r ∈ E, r.status = WAStatus.DRY_RUN) ∧
      (step w o).netCalls = w.netCalls ∧
      (step w o).artifacts = w.artifacts + E.length)
    (L : List String) (w : World) :
    ∃ E : List OutboxRow,
      (runOrders step w L).db.wa_outbox = w.db.wa_outbox ++ E ∧
      (∀ r ∈ E, r.status = WAStatus.DRY_RUN) ∧
      (runOrders step w L).netCalls = w.netCalls ∧
      (runOrders step w L).artifacts = w.artifacts + E.length := by
  refine runOrders_rel step
    (fun a b => ∃ E : List OutboxRow,
      b.db.wa_outbox = a.db.wa_outbox ++ E ∧
      (∀ r ∈ E, r.status = WAStatus.DRY_RUN) ∧
      b.netCalls = a.netCalls ∧ b.artifacts = a.artifacts + E.length)
    (fun w => ⟨[], by simp, by simp, rfl, by simp⟩) ?_ hstep L w
  rintro a b c ⟨E1, hob1, hdry1, hnet1, hart1⟩ ⟨E2, hob2, hdry2, hnet2, hart2⟩
  refine ⟨E1 ++ E2, by rw [hob2, hob1, List.append_assoc], ?_,
    hnet2.trans hnet1, by rw [hart2, hart1, List.length_append]; omega⟩
  intro r hr
  rcases List.mem_append.1 hr with hr | hr
  · exact hdry1 r hr
  · exact hdry2 r hr

theorem step1_ids (w : World) (o : String) :
    (step1 v orc d w o).db.workflows.map WorkflowRow.order_id
      = w.db.workflows.map WorkflowRow.order_id := by
  rw [step1_workflows]
  split
  · exact map_orderId_setStateList w.db.workflows o STATE_WAITING_SIZE_INFO
  · rfl

theorem step2_ids (w : World) (o : String) :
    (step2 v orc d w o).db.workflows.map WorkflowRow.order_id
      = w.db.workflows.map WorkflowRow.order_id := by
  rw [step2_workflows]
  split
  · exact map_orderId_setStateList w.db.workflows o STATE_WAITING_CONFIRM
  · rfl

theorem step3_ids (w : World) (o : String) :
    (step3 v orc d w o).db.workflows.map WorkflowRow.order_id
      = w.db.workflows.map WorkflowRow.order_id := by
  rw [step3_workflows]
  split
  · exact map_orderId_setStateList w.db.workflows o STATE_CONFIRMED
  · split
    · exact map_orderId_setStateList w.db.workflows o STATE_WAITING_SIZE_INFO
    · rfl

theorem runOrders_ids (step : World → String → World)
    (hstep : ∀ (w : World) (o : String),
      (step w o).db.workflows.map WorkflowRow.order_id
        = w.db.workflows.map WorkflowRow.order_id)
    (L : List String) (w : World) :
    (runOrders step w L).db.workflows.map WorkflowRow.order_id
      = w.db.workflows.map WorkflowRow.order_id :=
  runOrders_rel step
    (fun a b => b.db.workflows.map WorkflowRow.order_id
      = a.db.workflows.map WorkflowRow.order_id)
    (fun _ => rfl) (fun _ _ _ h1 h2 => h2.trans h1) hstep L w

theorem run1_rowState (L : List String) :
    ∀ (w : World), L.Nodup → ∀ o : String,
      rowState (runOrders (step1 v orc d) w L).db.workflows o
        = if o ∈ L ∧ (get_customer_phone w.db o).isSome = true
          then (rowState w.db.workflows o).map
            (fun _ => STATE_WAITING_SIZE_INFO)
          else rowState w.db.workflows o := by
  induction L with
  | nil =>
    intro w _ o
    simp only [List.not_mem_nil, false_and, if_false]
    rfl
  | cons a os ih =>
    intro w hnd o
    have hnd' : os.Nodup := (List.nodup_cons.1 hnd).2
    have ha : a ∉ os := (List.nodup_cons.1 hnd).1
    show rowState
      (runOrders (step1 v orc d) (step1 v orc d w a) os).db.workflows o = _
    rw [ih (step1 v orc d w a) hnd' o]
    rw [get_customer_phone_congr w.db _ o (step1_ro v orc d w a).1]
    by_cases hmem : o ∈ os
    · have hne : o ≠ a := fun h => ha (h ▸ hmem)
      have hrs : rowState (step1 v orc d w a).db.workflows o
          = rowState w.db.workflows o := by
        rw [step1_workflows]
        split
        · exact rowState_setStateList_ne w.db.workflows a o
            STATE_WAITING_SIZE_INFO hne
        · rfl
      rw [hrs]
      by_cases hc : (get_customer_phone w.db o).isSome = true
      · simp [hmem, hc]
      · simp [hmem, hc]
    · by_cases hoa : o = a
      · subst hoa
        by_cases hc : (get_customer_phone w.db o).isSome = true
        · have hrs : rowState (step1 v orc d w o).db.workflows o
              = (rowState w.db.workflows o).map
                (fun _ => STATE_WAITING_SIZE_INFO) := by
            rw [step1_workflows, if_pos hc]
            exact rowState_setStateList_self w.db.workflows o
              STATE_WAITING_SIZE_INFO
          rw [hrs]
          simp [hmem, hc]
        · have hrs : rowState (step1 v orc d w o).db.workflows o
              = rowState w.db.workflows o := by
            rw [step1_workflows, if_neg hc]
          rw [hrs]
          simp [hmem, hc]
      · have hrs : rowState (step1 v orc d w a).db.workflows o
            = rowState w.db.workflows o := by
          rw [step1_workflows]
          split
          · exact rowState_setStateList_ne w.db.workflows a o
              STATE_WAITING_SIZE_INFO hoa
          · rfl
        rw [hrs]
        simp [hmem, hoa]

theorem run2_rowState (L : List String) :
    ∀ (w : World), L.Nodup → ∀ o : String,
      rowState (runOrders (step2 v orc d) w L).db.workflows o
        = if o ∈ L ∧ (measOf w.db o).isSome = true
          then (rowState w.db.workflows o).map
            (fun _ => STATE_WAITING_CONFIRM)
          else rowState w.db.workflows o := by
  induction L with
  | nil =>
    intro w _ o
    simp only [List.not_mem_nil, false_and, if_false]
    rfl
  | cons a os ih =>
    intro w hnd o
    have hnd' : os.Nodup := (List.nodup_cons.1 hnd).2
    have ha : a ∉ os := (List.nodup_cons.1 hnd).1
    show rowState
      (runOrders (step2 v orc d) (step2 v orc d w a) os).db.workflows o = _
    rw [ih (step2 v orc d w a) hnd' o]
    rw [measOf_ro w.db _ o (step2_ro v orc d w a)]
    by_cases hmem : o ∈ os
    · have hne : o ≠ a := fun h => ha (h ▸ hmem)
      have hrs : rowState (step2 v orc d w a).db.workflows o
          = rowState w.db.workflows o := by
        rw [step2_workflows]
        split
        · exact rowState_setStateList_ne w.db.workflows a o
            STATE_WAITING_CONFIRM hne
        · rfl
      rw [hrs]
      by_cases hc : (measOf w.db o).isSome = true
      · simp [hmem, hc]
      · simp [hmem, hc]
    · by_cases hoa : o = a
      · subst hoa
        by_cases hc : (measOf w.db o).isSome = true
        · have hrs : rowState (step2 v orc d w o).db.workflows o
              = (rowState w.db.workflows o).map
                (fun _ => STATE_WAITING_CONFIRM) := by
            rw [step2_workflows, if_pos hc]
            exact rowState_setStateList_self w.db.workflows o
              STATE_WAITING_CONFIRM
          rw [hrs]
          simp [hmem, hc]
        · have hrs : rowState (step2 v orc d w o).db.workflows o
              = rowState w.db.workflows o := by
            rw [step2_workflows, if_neg hc]
          rw [hrs]
          simp [hmem, hc]
      · have hrs : rowState (step2 v orc d w a).db.workflows o
            = rowState w.db.workflows o := by
          rw [step2_workflows]
          split
          · exact rowState_setStateList_ne w.db.workflows a o
              STATE_WAITING_CONFIRM hoa
          · rfl
        rw [hrs]
        simp [hmem, hoa]

theorem run3_rowState (L : List String) :
    ∀ (w : World), L.Nodup → ∀ o : String,
      rowState (runOrders (step3 v orc d) w L).db.workflows o
        = if o ∈ L ∧ confOf w.db o = some "yes"
          then (rowState w.db.workflows o).map (fun _ => STATE_CONFIRMED)
          else if o ∈ L ∧ confOf w.db o = some "no"
          then (rowState w.db.workflows o).map
            (fun _ => STATE_WAITING_SIZE_INFO)
          else rowState w.db.workflows o := by
  induction L with
  | nil =>
    intro w _ o
    simp only [List.not_mem_nil, false_and, if_false]
    rfl
  | cons a os ih =>
    intro w hnd o
    have hnd' : os.Nodup := (List.nodup_cons.1 hnd).2
    have ha : a ∉ os := (List.nodup_cons.1 hnd).1
    show rowState
      (runOrders (step3 v orc d) (step3 v orc d w a) os).db.workflows o = _
    rw [ih (step3 v orc d w a) hnd' o]
    rw [confOf_ro w.db _ o (step3_ro v orc d w a)]
    have hrs_ne : o ≠ a → rowState (step3 v orc d w a).db.workflows o
        = rowState w.db.workflows o := by
      intro hne
      rw [step3_workflows]
      split
      · exact rowState_setStateList_ne w.db.workflows a o STATE_CONFIRMED hne
      · split
        · exact rowState_setStateList_ne w.db.workflows a o
            STATE_WAITING_SIZE_INFO hne
        · rfl
    by_cases hmem : o ∈ os
    · have hne : o ≠ a := fun h => ha (h ▸ hmem)
      rw [hrs_ne hne]
      by_cases hy : confOf w.db o = some "yes"
      · simp [hmem, hy]
      · by_cases hn : confOf w.db o = some "no"
        · simp [hmem, hy, hn]
        · simp [hmem, hy, hn]
    · by_cases hoa : o = a
      · subst hoa
        by_cases hy : confOf w.db o = some "yes"
        · have hrs : rowState (step3 v orc d w o).db.workflows o
              = (rowState w.db.workflows o).map (fun _ => STATE_CONFIRMED) := by
            rw [step3_workflows, if_pos hy]
            exact rowState_setStateList_self w.db.workflows o STATE_CONFIRMED
          rw [hrs]
          simp [hmem, hy]
        · by_cases hn : confOf w.db o = some "no"
          · have hrs : rowState (step3 v orc d w o).db.workflows o
                = (rowState w.db.workflows o).map
                  (fun _ => STATE_WAITING_SIZE_INFO) := by
              rw [step3_workflows, if_neg hy, if_pos hn]
              exact rowState_setStateList_self w.db.workflows o
                STATE_WAITING_SIZE_INFO
            rw [hrs]
            simp [hmem, hy, hn]
          · have hrs : rowState (step3 v orc d w o).db.workflows o
                = rowState w.db.workflows o := by
              rw [step3_workflows, if_neg hy, if_neg hn]
            rw [hrs]
            simp [hmem, hy, hn]
      · rw [hrs_ne hoa]
        simp [hmem, hoa]
end RunLemmas

/-! ### Fetch lemmas: relating the scan snapshots to per-order states -/

theorem find?_eq_of_mem_of_nodup (ws : List WorkflowRow)
    (hnd : (ws.map WorkflowRow.order_id).Nodup) (r : WorkflowRow)
    (hr : r ∈ ws) :
    ws.find? (fun x => x.order_id == r.order_id) = some r := by
  induction ws with
  | nil => cases hr
  | cons h t ih =>
    rcases List.mem_cons.1 hr with rfl | hrt
    · rw [List.find?_cons]
      simp
    · rw [List.find?_cons]
      have hne : (h.order_id == r.order_id) = false := by
        simp only [List.map_cons, List.nodup_cons] at hnd
        have : r.order_id ∈ t.map WorkflowRow.order_id :=
          List.mem_map_of_mem WorkflowRow.order_id hrt
        simp only [beq_eq_false_iff_ne, ne_eq]
        intro hx
        exact hnd.1 (hx ▸ this)
      rw [hne]
      exact ih (by
        simp only [List.map_cons, List.nodup_cons] at hnd
        exact hnd.2) hrt

theorem fetchOrders_nodup (db : Store) (hwf : WorkflowsWF db) (st : String) :
    (fetchOrders db st).Nodup := by
  unfold fetchOrders
  unfold WorkflowsWF at hwf
  exact List.Nodup.sublist
    (List.Sublist.map WorkflowRow.order_id (List.filter_sublist _)) hwf

theorem fetchOrders_mem (db : Store) (hwf : WorkflowsWF db) (o st : String) :
    o ∈ fetchOrders db st ↔ stateOf db o = some st := by
  unfold fetchOrders stateOf rowState
  constructor
  · intro h
    obtain ⟨r, hrf, hro⟩ := List.mem_map.1 h
    obtain ⟨hmem, hp⟩ := List.mem_filter.1 hrf
    have hst : r.state = st := by simpa using hp
    rw [← hro]
    rw [find?_eq_of_mem_of_nodup db.workflows hwf r hmem]
    simp [hst]
  · intro h
    obtain ⟨r, hfind, hstr⟩ : ∃ r, db.workflows.find?
        (fun x => x.order_id == o) = some r ∧ r.state = st := by
      cases hf : db.workflows.find? (fun x => x.order_id == o) with
      | none => rw [hf] at h; cases h
      | some r =>
        rw [hf] at h
        exact ⟨r, rfl, by simpa using h⟩
    have hmem : r ∈ db.workflows := List.mem_of_find?_eq_some hfind
    have hid : r.order_id = o := by
      have := List.find?_some hfind
      simpa using this
    refine List.mem_map.2 ⟨r, List.mem_filter.2 ⟨hmem, by simp [hstr]⟩, hid⟩

/-- `find_latest_confirmation` only ever returns `"yes"` or `"no"`. -/
theorem findConf_values (l : List InboxRow) :
    findConf l = none ∨ findConf l = some "yes" ∨ findConf l = some "no" := by
  induction l with
  | nil => exact Or.inl rfl
  | cons r rs ih =>
    unfold findConf
    cases hc : r.parsed.confirmation with
    | none => simp only []; exact ih
    | some c =>
      simp only []
      by_cases hcy : c = "yes" ∨ c = "no"
      · rw [if_pos hcy]
        rcases hcy with rfl | rfl
        · exact Or.inr (Or.inl rfl)
        · exact Or.inr (Or.inr rfl)
      · rw [if_neg hcy]
        exact ih

theorem confOf_values (db : Store) (o : String) :
    confOf db o = none ∨ confOf db o = some "yes" ∨
      confOf db o = some "no" := by
  unfold confOf
  cases get_customer_phone db o with
  | none => exact Or.inl rfl
  | some p => exact findConf_values _

theorem measOf_isSome_phone (db : Store) (o : String)
    (h : (measOf db o).isSome = true) :
    ∃ p, get_customer_phone db o = some p := by
  unfold measOf at h
  cases hp : get_customer_phone db o with
  | none => rw [hp] at h; cases h
  | some p => exact ⟨p, rfl⟩

/-- A Stable-style fact extractor: from a per-order state, the unique row. -/
theorem row_of_stateOf (db : Store) (o st : String)
    (h : stateOf db o = some st) :
    ∃ r ∈ db.workflows, r.order_id = o ∧ r.state = st := by
  unfold stateOf rowState at h
  cases hf : db.workflows.find? (fun x => x.order_id == o) with
  | none => rw [hf] at h; cases h
  | some r =>
    rw [hf] at h
    refine ⟨r, List.mem_of_find?_eq_some hf, ?_, by simpa using h⟩
    have := List.find?_some hf
    simpa using this

/-! ### Tick-level composition lemmas -/

section TickLemmas

variable (ff : Option FlagsFile) (v : Vendor) (orc : Nat → Bool) (w : World)

theorem process_once_ids :
    (process_once ff v orc w).db.workflows.map WorkflowRow.order_id
      = w.db.workflows.map WorkflowRow.order_id := by
  unfold process_once
  rw [runOrders_ids _ (step3_ids v orc _)]
  rw [runOrders_ids _ (step2_ids v orc _)]
  rw [runOrders_ids _ (step1_ids v orc _)]

theorem process_once_wf (hwf : WorkflowsWF w.db) :
    WorkflowsWF (process_once ff v orc w).db := by
  unfold WorkflowsWF at *
  rw [process_once_ids]
  exact hwf

theorem process_once_ro : ReadOnlyEq w.db (process_once ff v orc w).db := by
  unfold process_once
  exact ReadOnlyEq.trans'
    (ReadOnlyEq.trans' (run1_ro v orc _ _ w) (run2_ro v orc _ _ _))
    (run3_ro v orc _ _ _)

theorem process_once_outbox_ext :
    ∃ E, (process_once ff v orc w).db.wa_outbox = w.db.wa_outbox ++ E := by
  unfold process_once
  obtain ⟨E1, h1⟩ := run1_outbox_ext v orc (load_flags ff).dry_run
    (fetchOrders w.db STATE_NEW) w
  obtain ⟨E2, h2⟩ := run2_outbox_ext v orc (load_flags ff).dry_run
    (fetchOrders (runOrders (step1 v orc (load_flags ff).dry_run) w
      (fetchOrders w.db STATE_NEW)).db STATE_WAITING_SIZE_INFO) _
  obtain ⟨E3, h3⟩ := run3_outbox_ext v orc (load_flags ff).dry_run
    (fetchOrders (runOrders (step2 v orc (load_flags ff).dry_run)
      (runOrders (step1 v orc (load_flags ff).dry_run) w
        (fetchOrders w.db STATE_NEW))
      (fetchOrders (runOrders (step1 v orc (load_flags ff).dry_run) w
        (fetchOrders w.db STATE_NEW)).db STATE_WAITING_SIZE_INFO)).db
      STATE_WAITING_CONFIRM) _
  exact ⟨E1 ++ E2 ++ E3, by
    rw [h3, h2, h1]
    simp [List.append_assoc]⟩

theorem process_once_obCount (o t : String) :
    obCount (process_once ff v orc w).db o t = obCount w.db o t ∨
      (obCount w.db o t = 0 ∧
        obCount (process_once ff v orc w).db o t = 1) := by
  unfold process_once
  simp only []
  have c1 := runOrders_obCount (step1 v orc (load_flags ff).dry_run)
    (step1_obCount v orc _) (fetchOrders w.db STATE_NEW) w o t
  have c2 := runOrders_obCount (step2 v orc (load_flags ff).dry_run)
    (step2_obCount v orc _)
    (fetchOrders (runOrders (step1 v orc (load_flags ff).dry_run) w
      (fetchOrders w.db STATE_NEW)).db STATE_WAITING_SIZE_INFO)
    (runOrders (step1 v orc (load_flags ff).dry_run) w
      (fetchOrders w.db STATE_NEW)) o t
  have c3 := runOrders_obCount (step3 v orc (load_flags ff).dry_run)
    (step3_obCount v orc _)
    (fetchOrders (runOrders (step2 v orc (load_flags ff).dry_run)
      (runOrders (step1 v orc (load_flags ff).dry_run) w
        (fetchOrders w.db STATE_NEW))
      (fetchOrders (runOrders (step1 v orc (load_flags ff).dry_run) w
        (fetchOrders w.db STATE_NEW)).db STATE_WAITING_SIZE_INFO)).db
      STATE_WAITING_CONFIRM)
    (runOrders (step2 v orc (load_flags ff).dry_run)
      (runOrders (step1 v orc (load_flags ff).dry_run) w
        (fetchOrders w.db STATE_NEW))
      (fetchOrders (runOrders (step1 v orc (load_flags ff).dry_run) w
        (fetchOrders w.db STATE_NEW)).db STATE_WAITING_SIZE_INFO)) o t
  rcases c3 with c3 | ⟨c30, c31⟩ <;> rcases c2 with c2 | ⟨c20, c21⟩ <;>
    rcases c1 with c1 | ⟨c10, c11⟩ <;> omega

theorem process_once_atMostOne (h : AtMostOnePerPair w.db) :
    AtMostOnePerPair (process_once ff v orc w).db := by
  intro o t
  rcases process_once_obCount ff v orc w o t with hc | ⟨_, hc⟩
  · rw [hc]; exact h o t
  · rw [hc]

theorem process_once_obCount_preserved (o t : String)
    (h : 1 ≤ obCount w.db o t) :
    obCount (process_once ff v orc w).db o t = obCount w.db o t := by
  rcases process_once_obCount ff v orc w o t with hc | ⟨hc0, _⟩
  · exact hc
  · omega

end TickLemmas

/-- A constant-mapped `Option String` can only be `none` or that constant. -/
theorem map_const_ne (a b : String) (x : Option String) (hab : ¬ a = b) :
    ¬ (some a = x.map (fun _ => b)) := by
  cases x with
  | none => simp
  | some s =>
    intro h
    exact hab (Option.some.inj h)

theorem obSentDryCount_le_obCount (db : Store) (o t : String) :
    obSentDryCount db o t ≤ obCount db o t := by
  unfold obSentDryCount obCount
  rw [← List.countP_eq_length_filter, ← List.countP_eq_length_filter]
  refine List.countP_mono_left ?_
  intro r _ hp
  simp only [Bool.and_eq_true] at hp
  simp only [Bool.and_eq_true]
  exact hp.1

/-- When the loaded flags say dry-run, a whole tick makes no network call,
adds one artifact per inserted outbox row, and every inserted row is
`DRY_RUN`. -/
theorem process_once_dry (ff : Option FlagsFile) (v : Vendor)
    (orc : Nat → Bool) (w : World) (hd : (load_flags ff).dry_run = true) :
    ∃ E : List OutboxRow,
      (process_once ff v orc w).db.wa_outbox = w.db.wa_outbox ++ E ∧
      (∀ r ∈ E, r.status = WAStatus.DRY_RUN) ∧
      (process_once ff v orc w).netCalls = w.netCalls ∧
      (process_once ff v orc w).artifacts = w.artifacts + E.length := by
  unfold process_once
  simp only []
  rw [hd]
  set L1 := fetchOrders w.db STATE_NEW with hL1
  set w1 := runOrders (step1 v orc true) w L1 with hw1
  set L2 := fetchOrders w1.db STATE_WAITING_SIZE_INFO with hL2
  set w2 := runOrders (step2 v orc true) w1 L2 with hw2
  set L3 := fetchOrders w2.db STATE_WAITING_CONFIRM with hL3
  obtain ⟨E1, hob1, hdry1, hnet1, hart1⟩ :=
    runOrders_dry (step1 v orc true)
      (fun a b => step1_dry v orc true a b rfl) L1 w
  rw [← hw1] at hob1 hnet1 hart1
  obtain ⟨E2, hob2, hdry2, hnet2, hart2⟩ :=
    runOrders_dry (step2 v orc true)
      (fun a b => step2_dry v orc true a b rfl) L2 w1
  rw [← hw2] at hob2 hnet2 hart2
  obtain ⟨E3, hob3, hdry3, hnet3, hart3⟩ :=
    runOrders_dry (step3 v orc true)
      (fun a b => step3_dry v orc true a b rfl) L3 w2
  refine ⟨E1 ++ E2 ++ E3, ?_, ?_, ?_, ?_⟩
  · rw [hob3, hob2, hob1]
    simp [List.append_assoc]
  · intro r hr
    rcases List.mem_append.1 hr with hr | hr
    · rcases List.mem_append.1 hr with hr | hr
      · exact hdry1 r hr
      · exact hdry2 r hr
    · exact hdry3 r hr
  · rw [hnet3, hnet2, hnet1]
  · rw [hart3, hart2, hart1]
    simp only [List.length_append]
    omega

/-- A tick on a `Stable` store changes neither the outbox nor the
workflow table. -/
theorem tick_silent (ff : Option FlagsFile) (v : Vendor) (orc : Nat → Bool)
    (w : World) (hwf : WorkflowsWF w.db) (hstable : Stable w.db) :
    (process_once ff v orc w).db.wa_outbox = w.db.wa_outbox ∧
    (process_once ff v orc w).db.workflows = w.db.workflows := by
  unfold process_once
  simp only []
  set d := (load_flags ff).dry_run with hd
  set L1 := fetchOrders w.db STATE_NEW with hL1
  have hphone1 : ∀ o ∈ L1, get_customer_phone w.db o = none := by
    intro o ho
    rw [hL1, fetchOrders_mem w.db hwf o STATE_NEW] at ho
    obtain ⟨r, hrmem, hrid, hrst⟩ := row_of_stateOf w.db o STATE_NEW ho
    have h := (hstable r hrmem).1 hrst
    rw [hrid] at h
    exact h
  have heq1 : runOrders (step1 v orc d) w L1 = w :=
    run1_silent v orc d L1 w hphone1
  rw [heq1]
  set L2 := fetchOrders w.db STATE_WAITING_SIZE_INFO with hL2
  have hnd2 : L2.Nodup := by
    rw [hL2]
    exact fetchOrders_nodup w.db hwf _
  have h2sent : ∀ o ∈ L2, (measOf w.db o).isSome = true →
      wa_outbox_sent w.db o "size_confirm" = true := by
    intro o ho hm
    rw [hL2, fetchOrders_mem w.db hwf o STATE_WAITING_SIZE_INFO] at ho
    obtain ⟨r, hrmem, hrid, hrst⟩ := row_of_stateOf w.db o _ ho
    have h3 := (hstable r hrmem).2.2 hrst
    rw [hrid] at h3
    exact (h3 hm).2.1
  set w2 := runOrders (step2 v orc d) w L2 with hw2
  have hob2 : w2.db.wa_outbox = w.db.wa_outbox := by
    rw [hw2]
    exact run2_outbox_silent v orc d L2 w h2sent
  have hwf2 : WorkflowsWF w2.db := by
    have h := hwf
    unfold WorkflowsWF at h ⊢
    rw [hw2, runOrders_ids _ (step2_ids v orc d)]
    exact h
  have hro2 : ReadOnlyEq w.db w2.db := by
    rw [hw2]
    exact run2_ro v orc d L2 w
  have hR2 : ∀ o, rowState w2.db.workflows o
      = if o ∈ L2 ∧ (measOf w.db o).isSome = true
        then (rowState w.db.workflows o).map (fun _ => STATE_WAITING_CONFIRM)
        else rowState w.db.workflows o := by
    intro o
    rw [hw2]
    exact run2_rowState v orc d L2 w hnd2 o
  set L3 := fetchOrders w2.db STATE_WAITING_CONFIRM with hL3
  have hnd3 : L3.Nodup := by
    rw [hL3]
    exact fetchOrders_nodup w2.db hwf2 _
  have hL3q : ∀ o ∈ L3,
      ((o ∈ L2 ∧ (measOf w.db o).isSome = true) ∧
        rowState w.db.workflows o = some STATE_WAITING_SIZE_INFO ∧
        confOf w.db o = some "no" ∧
        wa_outbox_sent w.db o "size_check_again" = true)
      ∨ (¬(o ∈ L2 ∧ (measOf w.db o).isSome = true) ∧
        rowState w.db.workflows o = some STATE_WAITING_CONFIRM ∧
        confOf w.db o = none) := by
    intro o ho
    have ho2 : o ∈ fetchOrders w2.db STATE_WAITING_CONFIRM := by
      rw [← hL3]
      exact ho
    have hst2 : rowState w2.db.workflows o = some STATE_WAITING_CONFIRM :=
      (fetchOrders_mem w2.db hwf2 o STATE_WAITING_CONFIRM).1 ho2
    rw [hR2 o] at hst2
    by_cases hc : o ∈ L2 ∧ (measOf w.db o).isSome = true
    · left
      have hoL2 : o ∈ fetchOrders w.db STATE_WAITING_SIZE_INFO := by
        rw [← hL2]
        exact hc.1
      have hwsi : rowState w.db.workflows o = some STATE_WAITING_SIZE_INFO :=
        (fetchOrders_mem w.db hwf o STATE_WAITING_SIZE_INFO).1 hoL2
      obtain ⟨r, hrmem, hrid, hrst⟩ := row_of_stateOf w.db o _ hwsi
      have h3 := (hstable r hrmem).2.2 hrst
      rw [hrid] at h3
      have h3' := h3 hc.2
      exact ⟨hc, hwsi, h3'.1, h3'.2.2⟩
    · right
      rw [if_neg hc] at hst2
      obtain ⟨r, hrmem, hrid, hrst⟩ := row_of_stateOf w.db o _ hst2
      have h2 := (hstable r hrmem).2.1 hrst
      rw [hrid] at h2
      refine ⟨hc, hst2, ?_⟩
      rcases h2 with h2 | h2
      · exact confOf_none_of_phone_none w o h2
      · exact h2
  have h3sent : ∀ o ∈ L3, confOf w2.db o = some "no" →
      wa_outbox_sent w2.db o "size_check_again" = true := by
    intro o ho hcz
    rcases hL3q o ho with ⟨_, _, _, hsent⟩ | ⟨_, _, hcnone⟩
    · rw [wa_outbox_sent_congr w.db w2.db o "size_check_again" hob2]
      exact hsent
    · rw [confOf_ro w.db w2.db o hro2] at hcz
      rw [hcnone] at hcz
      cases hcz
  have hob3 : (runOrders (step3 v orc d) w2 L3).db.wa_outbox
      = w2.db.wa_outbox :=
    run3_outbox_silent v orc d L3 w2 h3sent
  have hrowEq : ∀ o,
      rowState (runOrders (step3 v orc d) w2 L3).db.workflows o
        = rowState w.db.workflows o := by
    intro o
    rw [run3_rowState v orc d L3 w2 hnd3 o]
    by_cases ho3 : o ∈ L3
    · rcases hL3q o ho3 with ⟨hc2, hwsi, hcno, _⟩ | ⟨hc2, hwc, hcnone⟩
      · have hcno2 : confOf w2.db o = some "no" := by
          rw [confOf_ro w.db w2.db o hro2]
          exact hcno
        have hnotyes : ¬(o ∈ L3 ∧ confOf w2.db o = some "yes") := by
          intro hx
          rw [hcno2] at hx
          simp at hx
        rw [if_neg hnotyes, if_pos ⟨ho3, hcno2⟩]
        have hmv : rowState w2.db.workflows o
            = (rowState w.db.workflows o).map
              (fun _ => STATE_WAITING_CONFIRM) := by
          rw [hR2 o, if_pos hc2]
        rw [hmv, hwsi]
        rfl
      · have hcn2 : ¬(o ∈ L3 ∧ confOf w2.db o = some "yes") := by
          intro hx
          rw [confOf_ro w.db w2.db o hro2, hcnone] at hx
          simp at hx
        have hcn3 : ¬(o ∈ L3 ∧ confOf w2.db o = some "no") := by
          intro hx
          rw [confOf_ro w.db w2.db o hro2, hcnone] at hx
          simp at hx
        rw [if_neg hcn2, if_neg hcn3, hR2 o, if_neg hc2]
    · have hcond1 : ¬(o ∈ L3 ∧ confOf w2.db o = some "yes") :=
        fun hx => ho3 hx.1
      have hcond2 : ¬(o ∈ L3 ∧ confOf w2.db o = some "no") :=
        fun hx => ho3 hx.1
      rw [if_neg hcond1, if_neg hcond2]
      by_cases hc2 : o ∈ L2 ∧ (measOf w.db o).isSome = true
      · exfalso
        have hoL2 : o ∈ fetchOrders w.db STATE_WAITING_SIZE_INFO := by
          rw [← hL2]
          exact hc2.1
        have hwsi : rowState w.db.workflows o
            = some STATE_WAITING_SIZE_INFO :=
          (fetchOrders_mem w.db hwf o _).1 hoL2
        have hwc2 : rowState w2.db.workflows o
            = some STATE_WAITING_CONFIRM := by
          rw [hR2 o, if_pos hc2, hwsi]
          rfl
        have hmem : o ∈ fetchOrders w2.db STATE_WAITING_CONFIRM :=
          (fetchOrders_mem w2.db hwf2 o _).2 hwc2
        rw [← hL3] at hmem
        exact ho3 hmem
      · rw [hR2 o, if_neg hc2]
  have hids : (runOrders (step3 v orc d) w2 L3).db.workflows.map
      WorkflowRow.order_id = w.db.workflows.map WorkflowRow.order_id := by
    rw [runOrders_ids _ (step3_ids v orc d), hw2,
      runOrders_ids _ (step2_ids v orc d)]
  refine ⟨hob3.trans hob2, ?_⟩
  refine workflows_ext _ _ hids ?_ hrowEq
  rw [hids]
  exact hwf

/-- A tick on a well-formed store in which every order already sitting in
`WAITING_CONFIRM` (with a phone and measurements) has its `size_confirm`
outbox row leaves behind a `Stable` store. -/
theorem Stable_after_tick (ff : Option FlagsFile) (v : Vendor)
    (orc : Nat → Bool) (w : World) (hwf : WorkflowsWF w.db)
    (hcp : ConfirmRowsPresent w.db) :
    Stable (process_once ff v orc w).db := by
  unfold process_once
  simp only []
  set d := (load_flags ff).dry_run with hd
  set L1 := fetchOrders w.db STATE_NEW with hL1
  set w1 := runOrders (step1 v orc d) w L1 with hw1
  set L2 := fetchOrders w1.db STATE_WAITING_SIZE_INFO with hL2
  set w2 := runOrders (step2 v orc d) w1 L2 with hw2
  set L3 := fetchOrders w2.db STATE_WAITING_CONFIRM with hL3
  set w3 := runOrders (step3 v orc d) w2 L3 with hw3
  have hnd1 : L1.Nodup := by
    rw [hL1]
    exact fetchOrders_nodup w.db hwf _
  have hwf1 : WorkflowsWF w1.db := by
    have h := hwf
    unfold WorkflowsWF at h ⊢
    rw [hw1, runOrders_ids _ (step1_ids v orc d)]
    exact h
  have hnd2 : L2.Nodup := by
    rw [hL2]
    exact fetchOrders_nodup w1.db hwf1 _
  have hwf2 : WorkflowsWF w2.db := by
    have h := hwf1
    unfold WorkflowsWF at h ⊢
    rw [hw2, runOrders_ids _ (step2_ids v orc d)]
    exact h
  have hnd3 : L3.Nodup := by
    rw [hL3]
    exact fetchOrders_nodup w2.db hwf2 _
  have hwf3 : WorkflowsWF w3.db := by
    have h := hwf2
    unfold WorkflowsWF at h ⊢
    rw [hw3, runOrders_ids _ (step3_ids v orc d)]
    exact h
  have hro1 : ReadOnlyEq w.db w1.db := by
    rw [hw1]
    exact run1_ro v orc d L1 w
  have hro2 : ReadOnlyEq w1.db w2.db := by
    rw [hw2]
    exact run2_ro v orc d L2 w1
  have hro3 : ReadOnlyEq w2.db w3.db := by
    rw [hw3]
    exact run3_ro v orc d L3 w2
  have hroA : ReadOnlyEq w.db w2.db := ReadOnlyEq.trans' hro1 hro2
  have hroB : ReadOnlyEq w.db w3.db := ReadOnlyEq.trans' hroA hro3
  have hobe1 : ∃ E, w1.db.wa_outbox = w.db.wa_outbox ++ E := by
    rw [hw1]
    exact run1_outbox_ext v orc d L1 w
  have hobe2 : ∃ E, w2.db.wa_outbox = w1.db.wa_outbox ++ E := by
    rw [hw2]
    exact run2_outbox_ext v orc d L2 w1
  have hobe3 : ∃ E, w3.db.wa_outbox = w2.db.wa_outbox ++ E := by
    rw [hw3]
    exact run3_outbox_ext v orc d L3 w2
  have hmono23 : ∀ o t, wa_outbox_sent w2.db o t = true →
      wa_outbox_sent w3.db o t = true := by
    intro o t h
    obtain ⟨E, hE⟩ := hobe3
    exact wa_outbox_sent_mono w2.db w3.db o t E hE h
  have hmonoW3 : ∀ o t, wa_outbox_sent w.db o t = true →
      wa_outbox_sent w3.db o t = true := by
    intro o t h
    obtain ⟨E1, hE1⟩ := hobe1
    obtain ⟨E2, hE2⟩ := hobe2
    exact hmono23 o t (wa_outbox_sent_mono w1.db w2.db o t E2 hE2
      (wa_outbox_sent_mono w.db w1.db o t E1 hE1 h))
  have hR1 : ∀ o, rowState w1.db.workflows o
      = if o ∈ L1 ∧ (get_customer_phone w.db o).isSome = true
        then (rowState w.db.workflows o).map (fun _ => STATE_WAITING_SIZE_INFO)
        else rowState w.db.workflows o := by
    intro o
    rw [hw1]
    exact run1_rowState v orc d L1 w hnd1 o
  have hR2 : ∀ o, rowState w2.db.workflows o
      = if o ∈ L2 ∧ (measOf w1.db o).isSome = true
        then (rowState w1.db.workflows o).map (fun _ => STATE_WAITING_CONFIRM)
        else rowState w1.db.workflows o := by
    intro o
    rw [hw2]
    exact run2_rowState v orc d L2 w1 hnd2 o
  intro r hrmem
  have hfind : w3.db.workflows.find? (fun x => x.order_id == r.order_id)
      = some r := find?_eq_of_mem_of_nodup w3.db.workflows hwf3 r hrmem
  have hrs3 : rowState w3.db.workflows r.order_id = some r.state := by
    unfold rowState
    rw [hfind]
    rfl
  have hR3r : rowState w3.db.workflows r.order_id
      = if r.order_id ∈ L3 ∧ confOf w2.db r.order_id = some "yes"
        then (rowState w2.db.workflows r.order_id).map (fun _ => STATE_CONFIRMED)
        else if r.order_id ∈ L3 ∧ confOf w2.db r.order_id = some "no"
        then (rowState w2.db.workflows r.order_id).map
          (fun _ => STATE_WAITING_SIZE_INFO)
        else rowState w2.db.workflows r.order_id := by
    rw [hw3]
    exact run3_rowState v orc d L3 w2 hnd3 r.order_id
  refine ⟨?_, ?_, ?_⟩
  · -- a NEW order in the result has no phone
    intro hstNEW
    rw [get_customer_phone_congr w.db w3.db r.order_id hroB.1]
    have h3 := hR3r
    rw [hrs3, hstNEW] at h3
    by_cases hy3 : r.order_id ∈ L3 ∧ confOf w2.db r.order_id = some "yes"
    · rw [if_pos hy3] at h3
      exact absurd h3 (map_const_ne STATE_NEW STATE_CONFIRMED _ (by decide))
    · rw [if_neg hy3] at h3
      by_cases hn3 : r.order_id ∈ L3 ∧ confOf w2.db r.order_id = some "no"
      · rw [if_pos hn3] at h3
        exact absurd h3
          (map_const_ne STATE_NEW STATE_WAITING_SIZE_INFO _ (by decide))
      · rw [if_neg hn3] at h3
        by_cases hc2 : r.order_id ∈ L2 ∧ (measOf w1.db r.order_id).isSome = true
        · rw [hR2 r.order_id, if_pos hc2] at h3
          exact absurd h3
            (map_const_ne STATE_NEW STATE_WAITING_CONFIRM _ (by decide))
        · rw [hR2 r.order_id, if_neg hc2] at h3
          by_cases hc1 : r.order_id ∈ L1 ∧
              (get_customer_phone w.db r.order_id).isSome = true
          · rw [hR1 r.order_id, if_pos hc1] at h3
            exact absurd h3
              (map_const_ne STATE_NEW STATE_WAITING_SIZE_INFO _ (by decide))
          · rw [hR1 r.order_id, if_neg hc1] at h3
            have hmem1 : r.order_id ∈ L1 := by
              rw [hL1]
              exact (fetchOrders_mem w.db hwf r.order_id STATE_NEW).2 h3.symm
            cases hph : get_customer_phone w.db r.order_id with
            | none => rfl
            | some p => exact absurd ⟨hmem1, by rw [hph]; rfl⟩ hc1
  · -- a WAITING_CONFIRM order in the result has no phone or no confirmation
    intro hstWC
    rw [get_customer_phone_congr w.db w3.db r.order_id hroB.1,
      confOf_ro w.db w3.db r.order_id hroB]
    have h3 := hR3r
    rw [hrs3, hstWC] at h3
    by_cases hy3 : r.order_id ∈ L3 ∧ confOf w2.db r.order_id = some "yes"
    · rw [if_pos hy3] at h3
      exact absurd h3
        (map_const_ne STATE_WAITING_CONFIRM STATE_CONFIRMED _ (by decide))
    · rw [if_neg hy3] at h3
      by_cases hn3 : r.order_id ∈ L3 ∧ confOf w2.db r.order_id = some "no"
      · rw [if_pos hn3] at h3
        exact absurd h3
          (map_const_ne STATE_WAITING_CONFIRM STATE_WAITING_SIZE_INFO _
            (by decide))
      · rw [if_neg hn3] at h3
        have hmem3 : r.order_id ∈ L3 := by
          rw [hL3]
          exact (fetchOrders_mem w2.db hwf2 r.order_id
            STATE_WAITING_CONFIRM).2 h3.symm
        rcases confOf_values w.db r.order_id with hcv | hcv | hcv
        · exact Or.inr hcv
        · exact absurd
            ⟨hmem3, by rw [confOf_ro w.db w2.db r.order_id hroA]; exact hcv⟩
            hy3
        · exact absurd
            ⟨hmem3, by rw [confOf_ro w.db w2.db r.order_id hroA]; exact hcv⟩
            hn3
  · -- a WAITING_SIZE_INFO order with measurements answered "no" and the
    -- two templates are recorded
    intro hstWSI hmeas3
    have hmeasW : (measOf w.db r.order_id).isSome = true := by
      rw [← measOf_ro w.db w3.db r.order_id hroB]
      exact hmeas3
    have h3 := hR3r
    rw [hrs3, hstWSI] at h3
    by_cases hy3 : r.order_id ∈ L3 ∧ confOf w2.db r.order_id = some "yes"
    · rw [if_pos hy3] at h3
      exact absurd h3
        (map_const_ne STATE_WAITING_SIZE_INFO STATE_CONFIRMED _ (by decide))
    · rw [if_neg hy3] at h3
      by_cases hn3 : r.order_id ∈ L3 ∧ confOf w2.db r.order_id = some "no"
      · rw [if_pos hn3] at h3
        have hcw : confOf w.db r.order_id = some "no" := by
          rw [← confOf_ro w.db w2.db r.order_id hroA]
          exact hn3.2
        refine ⟨?_, ?_, ?_⟩
        · rw [confOf_ro w.db w3.db r.order_id hroB]
          exact hcw
        · -- size_confirm was sent, either this tick or before it
          have hmemL3 := hn3.1
          rw [hL3] at hmemL3
          have hst2 : rowState w2.db.workflows r.order_id
              = some STATE_WAITING_CONFIRM :=
            (fetchOrders_mem w2.db hwf2 r.order_id STATE_WAITING_CONFIRM).1
              hmemL3
          by_cases hc2 : r.order_id ∈ L2 ∧
              (measOf w1.db r.order_id).isSome = true
          · have hs2 : wa_outbox_sent w2.db r.order_id "size_confirm"
                = true := by
              have h := run2_ensures v orc d L2 w1 r.order_id hc2.1 hc2.2
              rw [← hw2] at h
              exact h
            exact hmono23 r.order_id "size_confirm" hs2
          · rw [hR2 r.order_id, if_neg hc2] at hst2
            by_cases hc1 : r.order_id ∈ L1 ∧
                (get_customer_phone w.db r.order_id).isSome = true
            · rw [hR1 r.order_id, if_pos hc1] at hst2
              exact absurd hst2.symm
                (map_const_ne STATE_WAITING_CONFIRM STATE_WAITING_SIZE_INFO
                  _ (by decide))
            · rw [hR1 r.order_id, if_neg hc1] at hst2
              obtain ⟨rr, hrrmem, hrrid, hrrst⟩ :=
                row_of_stateOf w.db r.order_id _ hst2
              have hcpr := hcp rr hrrmem hrrst
              rw [hrrid] at hcpr
              have hphSome : (get_customer_phone w.db r.order_id).isSome
                  = true := by
                obtain ⟨p, hp⟩ := measOf_isSome_phone w.db r.order_id hmeasW
                rw [hp]
                rfl
              exact hmonoW3 r.order_id "size_confirm" (hcpr hphSome hmeasW)
        · have h := run3_ensures v orc d L3 w2 r.order_id hn3.1 hn3.2
          rw [← hw3] at h
          exact h
      · rw [if_neg hn3] at h3
        exfalso
        by_cases hc2 : r.order_id ∈ L2 ∧ (measOf w1.db r.order_id).isSome = true
        · rw [hR2 r.order_id, if_pos hc2] at h3
          exact absurd h3
            (map_const_ne STATE_WAITING_SIZE_INFO STATE_WAITING_CONFIRM _
              (by decide))
        · rw [hR2 r.order_id, if_neg hc2] at h3
          have hmemL2 : r.order_id ∈ L2 := by
            rw [hL2]
            exact (fetchOrders_mem w1.db hwf1 r.order_id
              STATE_WAITING_SIZE_INFO).2 h3.symm
          have hm1 : (measOf w1.db r.order_id).isSome = true := by
            rw [measOf_ro w.db w1.db r.order_id hro1]
            exact hmeasW
          exact hc2 ⟨hmemL2, hm1⟩

/-! ## Claims C1, C2, C3, C9, C10 -/

/-- Claim C1, counterexample: the persisted schema declares no unique
constraint at all on `wa_outbox` (only the `id` primary key), and a state
reachable by two direct `send_message` calls for the same
`(order_id, template)` pair holds two rows with status `SENT`/`DRY_RUN`
for that pair, so no constraint makes the second insert fail. -/
theorem C1_unique_constraint_counterexample :
    wa_outbox_table.uniqueConstraints = [] ∧
    wa_outbox_table.primaryKey = ["id"] ∧
    obSentDryCount
      ((send_message Vendor.d360 (fun _ => true) "+7700" (some "size_check")
        true (some "o1")
        ((send_message Vendor.d360 (fun _ => true) "+7700" (some "size_check")
          true (some "o1") emptyWorld).1)).1).db "o1" "size_check" = 2 := by
  refine ⟨rfl, rfl, ?_⟩
  decide

/-- Claim C1, amended: along ticks alone (any flag files, vendors and
network outcomes), starting from a store with at most one outbox row per
`(order_id, template)` pair, every reachable store still has at most one
row per pair, hence at most one `SENT`/`DRY_RUN` row per pair; the
deduplication comes from the `wa_outbox_sent` guard, not from a schema
constraint. -/
theorem C1_at_most_one_amended (w0 w : World)
    (h0 : AtMostOnePerPair w0.db) (hreach : ReachableByTicks w0 w) :
    AtMostOnePerPair w.db ∧
      ∀ o t, obSentDryCount w.db o t ≤ 1 := by
  have hA : AtMostOnePerPair w.db := by
    induction hreach with
    | refl => exact h0
    | tick w ff v orc hr ih => exact process_once_atMostOne ff v orc w ih
  exact ⟨hA, fun o t =>
    le_trans (obSentDryCount_le_obCount w.db o t) (hA o t)⟩

/-- Witness for the amended C1 theorem at the empty store. -/
theorem C1_at_most_one_amended_witness :
    AtMostOnePerPair emptyWorld.db ∧
    ReachableByTicks emptyWorld
      (process_once none Vendor.d360 (fun _ => false) emptyWorld) ∧
    (AtMostOnePerPair
        (process_once none Vendor.d360 (fun _ => false) emptyWorld).db ∧
      ∀ o t, obSentDryCount
        (process_once none Vendor.d360 (fun _ => false) emptyWorld).db o t
          ≤ 1) :=
  ⟨fun _ _ => Nat.zero_le 1,
   ReachableByTicks.tick emptyWorld emptyWorld none Vendor.d360
     (fun _ => false) (ReachableByTicks.refl emptyWorld),
   C1_at_most_one_amended emptyWorld
     (process_once none Vendor.d360 (fun _ => false) emptyWorld)
     (fun _ _ => Nat.zero_le 1)
     (ReachableByTicks.tick emptyWorld emptyWorld none Vendor.d360
       (fun _ => false) (ReachableByTicks.refl emptyWorld))⟩

/-- Claim C2, counterexample: on a store with one order in
`WAITING_CONFIRM` whose customer answered `"no"` in a message that also
carries measurements, the first tick adds one outbox row
(`size_check_again`, bouncing the order back to `WAITING_SIZE_INFO`), and
the second tick — with no new inbound messages in between — adds another
one (`size_confirm`, as the second scan now fires), so running the batch
tick twice is not idempotent on the outbox. -/
theorem C2_idempotency_counterexample :
    (process_once none Vendor.d360 (fun _ => false)
      pingPongWorld).db.wa_outbox.length = 1 ∧
    (process_once none Vendor.d360 (fun _ => false)
      (process_once none Vendor.d360 (fun _ => false)
        pingPongWorld)).db.wa_outbox.length = 2 := by
  constructor
  · decide
  · decide

/-- Claim C2, amended: if the workflow ids are unique and every order
already sitting in `WAITING_CONFIRM` with a phone and measurements has its
`size_confirm` outbox row (which holds for every state the engine itself
produced), then after one tick the store is stable: a second tick — with
no new inbound messages in between — adds no outbox row and changes no
workflow state, for any flag files, vendors and network outcomes. -/
theorem C2_second_tick_silent (w : World) (hwf : WorkflowsWF w.db)
    (hcp : ConfirmRowsPresent w.db) (ff1 ff2 : Option FlagsFile)
    (v1 v2 : Vendor) (orc1 orc2 : Nat → Bool) :
    (process_once ff2 v2 orc2 (process_once ff1 v1 orc1 w)).db.wa_outbox
      = (process_once ff1 v1 orc1 w).db.wa_outbox ∧
    (process_once ff2 v2 orc2 (process_once ff1 v1 orc1 w)).db.workflows
      = (process_once ff1 v1 orc1 w).db.workflows := by
  have hwf1 : WorkflowsWF (process_once ff1 v1 orc1 w).db :=
    process_once_wf ff1 v1 orc1 w hwf
  have hst : Stable (process_once ff1 v1 orc1 w).db :=
    Stable_after_tick ff1 v1 orc1 w hwf hcp
  exact tick_silent ff2 v2 orc2 (process_once ff1 v1 orc1 w) hwf1 hst

/-- Witness for the amended C2 theorem on the one-order pipeline store. -/
theorem C2_second_tick_silent_witness :
    WorkflowsWF pipelineWorld.db ∧ ConfirmRowsPresent pipelineWorld.db ∧
    ((process_once none Vendor.d360 (fun _ => false)
        (process_once none Vendor.d360 (fun _ => false)
          pipelineWorld)).db.wa_outbox
      = (process_once none Vendor.d360 (fun _ => false)
          pipelineWorld).db.wa_outbox ∧
     (process_once none Vendor.d360 (fun _ => false)
        (process_once none Vendor.d360 (fun _ => false)
          pipelineWorld)).db.workflows
      = (process_once none Vendor.d360 (fun _ => false)
          pipelineWorld).db.workflows) :=
  ⟨by unfold WorkflowsWF; decide, by unfold ConfirmRowsPresent; decide,
   C2_second_tick_silent pipelineWorld (by unfold WorkflowsWF; decide)
     (by unfold ConfirmRowsPresent; decide) none none Vendor.d360 Vendor.d360
     (fun _ => false) (fun _ => false)⟩

/-- Claim C3, counterexample: on a store whose only outbox row for
`("o1", "size_check")` has status `ERROR`, a later tick re-attempts
nothing — the outbox is unchanged — because `wa_outbox_sent` counts rows
of any status, `ERROR` included; the order still advances to
`WAITING_SIZE_INFO`. -/
theorem C3_error_retry_counterexample :
    errorRowWorld.db.wa_outbox
      = [⟨some "o1", "+7700", some "size_check", WAStatus.ERROR⟩] ∧
    (process_once none Vendor.d360 (fun _ => false)
      errorRowWorld).db.wa_outbox = errorRowWorld.db.wa_outbox ∧
    stateOf (process_once none Vendor.d360 (fun _ => false)
      errorRowWorld).db "o1" = some STATE_WAITING_SIZE_INFO := by
  refine ⟨rfl, ?_, ?_⟩
  · decide
  · decide

/-- Claim C3, amended: a failed live send (known vendor, oracle says the
HTTP call fails) returns `ERROR` and records an `ERROR` outbox row after
one network call, with no exception surfaced to the caller; but an
`ERROR` row counts as already sent — any pair with at least one outbox
row of any status gets no further row from any later tick. -/
theorem C3_error_retry_amended (v : Vendor) (orc : Nat → Bool) (w : World)
    (toPhone o t : String) (hv : ¬ v = Vendor.other)
    (hfail : orc w.netCalls = false) :
    ((send_message v orc toPhone (some t) false (some o) w).2
        = WAStatus.ERROR ∧
      (send_message v orc toPhone (some t) false (some o) w).1.db.wa_outbox
        = w.db.wa_outbox ++ [⟨some o, toPhone, some t, WAStatus.ERROR⟩] ∧
      (send_message v orc toPhone (some t) false (some o) w).1.netCalls
        = w.netCalls + 1) ∧
    ∀ (w' : World) (o' t' : String), wa_outbox_sent w'.db o' t' = true →
      ∀ (ff : Option FlagsFile) (v' : Vendor) (orc' : Nat → Bool),
        obCount (process_once ff v' orc' w').db o' t' = obCount w'.db o' t' := by
  constructor
  · cases v with
    | other => exact absurd rfl hv
    | twilio => simp [send_message, insertOutbox, hfail]
    | d360 => simp [send_message, insertOutbox, hfail]
  · intro w' o' t' hsent ff v' orc'
    have hge : 1 ≤ obCount w'.db o' t' := by
      rcases Nat.eq_zero_or_pos (obCount w'.db o' t') with h0 | h1
      · exfalso
        have hf := (wa_outbox_sent_false_iff w'.db o' t').2 h0
        rw [hsent] at hf
        cases hf
      · exact h1
    exact process_once_obCount_preserved ff v' orc' w' o' t' hge

/-- Witness for the amended C3 theorem on the error-row store. -/
theorem C3_error_retry_amended_witness :
    (¬ Vendor.twilio = Vendor.other) ∧
    ((fun _ : Nat => false) errorRowWorld.netCalls = false) ∧
    (((send_message Vendor.twilio (fun _ => false) "+7700"
          (some "size_check") false (some "o1") errorRowWorld).2
        = WAStatus.ERROR ∧
      (send_message Vendor.twilio (fun _ => false) "+7700"
          (some "size_check") false (some "o1")
          errorRowWorld).1.db.wa_outbox
        = errorRowWorld.db.wa_outbox ++
          [⟨some "o1", "+7700", some "size_check", WAStatus.ERROR⟩] ∧
      (send_message Vendor.twilio (fun _ => false) "+7700"
          (some "size_check") false (some "o1") errorRowWorld).1.netCalls
        = errorRowWorld.netCalls + 1) ∧
    ∀ (w' : World) (o' t' : String), wa_outbox_sent w'.db o' t' = true →
      ∀ (ff : Option FlagsFile) (v' : Vendor) (orc' : Nat → Bool),
        obCount (process_once ff v' orc' w').db o' t'
          = obCount w'.db o' t') :=
  ⟨by decide, rfl,
   C3_error_retry_amended Vendor.twilio (fun _ => false) errorRowWorld
     "+7700" "o1" "size_check" (by decide) rfl⟩

/-- Claim C9: with a missing or unreadable `STATE.json` the tick runs with
`dry_run = true`; it makes no vendor network call, writes one local
artifact per message it would have sent, and every `wa_outbox` row it
inserts has status `DRY_RUN`. -/
theorem C9_missing_flags_dry_run (v : Vendor) (orc : Nat → Bool)
    (w : World) :
    (load_flags none).dry_run = true ∧
    ∃ E : List OutboxRow,
      (process_once none v orc w).db.wa_outbox = w.db.wa_outbox ++ E ∧
      (∀ r ∈ E, r.status = WAStatus.DRY_RUN) ∧
      (process_once none v orc w).netCalls = w.netCalls ∧
      (process_once none v orc w).artifacts = w.artifacts + E.length :=
  ⟨rfl, process_once_dry none v orc w rfl⟩

/-- Claim C10: an order in `WAITING_CONFIRM` whose latest confirmation is
`"yes"` but that has no `size_recommendations` row still transitions to
`CONFIRMED`, and no snapshot row is inserted, so it still has no
`size_recommendations` row — hence no `final_size` — afterwards. -/
theorem C10_yes_without_reco (ff : Option FlagsFile) (v : Vendor)
    (orc : Nat → Bool) (w : World) (o : String)
    (hwf : WorkflowsWF w.db)
    (hst : stateOf w.db o = some STATE_WAITING_CONFIRM)
    (hconf : confOf w.db o = some "yes")
    (hrec : recsOf w.db o = []) :
    stateOf (process_once ff v orc w).db o = some STATE_CONFIRMED ∧
      recsOf (process_once ff v orc w).db o = [] := by
  unfold process_once
  simp only []
  set d := (load_flags ff).dry_run with hd
  set L1 := fetchOrders w.db STATE_NEW with hL1
  set w1 := runOrders (step1 v orc d) w L1 with hw1
  set L2 := fetchOrders w1.db STATE_WAITING_SIZE_INFO with hL2
  set w2 := runOrders (step2 v orc d) w1 L2 with hw2
  set L3 := fetchOrders w2.db STATE_WAITING_CONFIRM with hL3
  have hnd1 : L1.Nodup := by
    rw [hL1]
    exact fetchOrders_nodup w.db hwf _
  have hwf1 : WorkflowsWF w1.db := by
    have h := hwf
    unfold WorkflowsWF at h ⊢
    rw [hw1, runOrders_ids _ (step1_ids v orc d)]
    exact h
  have hnd2 : L2.Nodup := by
    rw [hL2]
    exact fetchOrders_nodup w1.db hwf1 _
  have hwf2 : WorkflowsWF w2.db := by
    have h := hwf1
    unfold WorkflowsWF at h ⊢
    rw [hw2, runOrders_ids _ (step2_ids v orc d)]
    exact h
  have hro1 : ReadOnlyEq w.db w1.db := by
    rw [hw1]
    exact run1_ro v orc d L1 w
  have hro2 : ReadOnlyEq w1.db w2.db := by
    rw [hw2]
    exact run2_ro v orc d L2 w1
  have hno1 : o ∉ L1 := by
    rw [hL1]
    intro hmem
    rw [fetchOrders_mem w.db hwf o STATE_NEW] at hmem
    rw [hst] at hmem
    simp [STATE_WAITING_CONFIRM, STATE_NEW] at hmem
  have hrow1 : rowState w1.db.workflows o = rowState w.db.workflows o := by
    rw [hw1, run1_rowState v orc d L1 w hnd1 o]
    have hcnd : ¬(o ∈ L1 ∧ (get_customer_phone w.db o).isSome = true) :=
      fun hc => hno1 hc.1
    rw [if_neg hcnd]
  have hst1 : stateOf w1.db o = some STATE_WAITING_CONFIRM := by
    show rowState w1.db.workflows o = _
    rw [hrow1]
    exact hst
  have hconf1 : confOf w1.db o = some "yes" := by
    rw [confOf_ro w.db w1.db o hro1]
    exact hconf
  have hrec1 : recsOf w1.db o = [] := by
    have hsr1 : w1.db.size_recommendations = w.db.size_recommendations := by
      rw [hw1]
      exact run1_recs v orc d L1 w
    rw [recsOf_congr w.db w1.db o hsr1]
    exact hrec
  have hno2 : o ∉ L2 := by
    rw [hL2]
    intro hmem
    rw [fetchOrders_mem w1.db hwf1 o STATE_WAITING_SIZE_INFO] at hmem
    rw [hst1] at hmem
    simp [STATE_WAITING_CONFIRM, STATE_WAITING_SIZE_INFO] at hmem
  have hrow2 : rowState w2.db.workflows o = rowState w1.db.workflows o := by
    rw [hw2, run2_rowState v orc d L2 w1 hnd2 o]
    have hcnd : ¬(o ∈ L2 ∧ (measOf w1.db o).isSome = true) :=
      fun hc => hno2 hc.1
    rw [if_neg hcnd]
  have hst2 : rowState w2.db.workflows o = some STATE_WAITING_CONFIRM := by
    rw [hrow2]
    exact hst1
  have hconf2 : confOf w2.db o = some "yes" := by
    rw [confOf_ro w1.db w2.db o hro2]
    exact hconf1
  have hrec2 : recsOf w2.db o = [] := by
    rw [hw2, run2_recsOf_ne v orc d L2 w1 o hno2]
    exact hrec1
  have hmem3 : o ∈ L3 := by
    rw [hL3, fetchOrders_mem w2.db hwf2 o STATE_WAITING_CONFIRM]
    exact hst2
  have hnd3 : L3.Nodup := by
    rw [hL3]
    exact fetchOrders_nodup w2.db hwf2 _
  refine ⟨?_, ?_⟩
  · show rowState (runOrders (step3 v orc d) w2 L3).db.workflows o = _
    rw [run3_rowState v orc d L3 w2 hnd3 o, if_pos ⟨hmem3, hconf2⟩, hst2]
    rfl
  · exact run3_recsOf_empty v orc d L3 w2 o hrec2

/-- Witness for the C10 theorem on the store with a `"yes"` and no
recommendation row. -/
theorem C10_yes_without_reco_witness :
    WorkflowsWF noRecoWorld.db ∧
    stateOf noRecoWorld.db "o1" = some STATE_WAITING_CONFIRM ∧
    confOf noRecoWorld.db "o1" = some "yes" ∧
    recsOf noRecoWorld.db "o1" = [] ∧
    (stateOf (process_once none Vendor.d360 (fun _ => false)
        noRecoWorld).db "o1" = some STATE_CONFIRMED ∧
      recsOf (process_once none Vendor.d360 (fun _ => false)
        noRecoWorld).db "o1" = []) :=
  ⟨by unfold WorkflowsWF; decide, by decide, by decide, rfl,
   C10_yes_without_reco none Vendor.d360 (fun _ => false) noRecoWorld "o1"
     (by unfold WorkflowsWF; decide) (by decide) (by decide) rfl⟩

end KaspiEtl
